import Mathlib

/-!
Verification development for the tradingview-mcp repository.

The development shallowly embeds the core logic of
`src/tradingview_mcp/validators.py`, `src/tradingview_mcp/utils.py` and
`src/tradingview_mcp/tradingview_tools.py`:

* indicator validation and the static indicator catalog,
* `merge_ohlc_with_indicators` (the series merger),
* `fetch_historical_data` (validation, cookie/token gate, indicator
  batching, batch combination),
* `process_option_chain_with_analysis` (grouping, ITM/OTM window
  selection, expiry filtering, aggregate analytics).

Modelling conventions:

* Python float quantities (prices, greeks, strikes) are modelled as
  fixed-point decimals: an integer number of 10^-8 units, carried as
  `Int`.  All numeric operations on the embedded code paths are linear
  (addition, subtraction, negation, `abs`, `max`, `min`, decimal
  rounding), so this model is exact on every decimal input; binary
  floating point representation error is out of scope.  Python
  `round(x, n)` (round-half-even) becomes `roundToMultiple (10^(8-n))`.
* Python dicts used as ordered maps become association lists in
  insertion order; a dict update keeps the position of an existing key.
* Python `None` becomes `Option.none`; functions that may raise return
  `Except`.
* External collaborators (the session token provider, the streaming
  market data source, the option chain scanner, the timestamp renderer)
  are parameters of the embedding, supplied through environment records.
* The thread pool of `fetch_historical_data` is modelled by running the
  batches in submission order; the completion-order-independence of the
  result combination is a property proved about `combineBatches`, whose
  input list stands for the arbitrary arrival order of batch results.
-/

/-- Equality of `Except` values is decidable when it is on both
sides; used to evaluate the embedded fallible functions on concrete
inputs. -/
instance {ε α : Type} [DecidableEq ε] [DecidableEq α] : DecidableEq (Except ε α)
  | .error a, .error b =>
    if h : a = b then .isTrue (by rw [h])
    else .isFalse (by intro hh; cases hh; exact h rfl)
  | .error _, .ok _ => .isFalse (by intro h; cases h)
  | .ok _, .error _ => .isFalse (by intro h; cases h)
  | .ok a, .ok b =>
    if h : a = b then .isTrue (by rw [h])
    else .isFalse (by intro hh; cases hh; exact h rfl)

namespace TV

/-- Fixed-point decimal: an integer count of 10^-8 units. -/
abbrev Fx := Int

/-- One whole unit in the fixed-point scale. -/
def fxOne : Int := 100000000

/-- Python `abs` on numbers. -/
def pyAbs (x : Int) : Int := if x < 0 then -x else x

/-- Round `x` to the nearest multiple of `m` (with `m > 0` in all uses),
ties to even multiples; this is Python `round` restated on fixed-point
values, where rounding a value to `n` decimal digits rounds the scaled
integer to a multiple of `10^(8-n)`. -/
def roundToMultiple (m : Int) (x : Int) : Int :=
  let f := x / m
  let r := x - f * m
  if 2 * r < m then f * m
  else if 2 * r > m then (f + 1) * m
  else if f % 2 = 0 then f * m else (f + 1) * m

/-- Python `round(x, 2)` on a fixed-point value. -/
def round2 (x : Int) : Int := roundToMultiple 1000000 x

/-- Python `round(x, 4)` on a fixed-point value. -/
def round4 (x : Int) : Int := roundToMultiple 10000 x

/-- Python `str.upper`, restricted to the ASCII names used by the
catalog and the exchange table. -/
def pyUpper (s : String) : String := ⟨s.data.map Char.toUpper⟩

/-- Python `str.strip`. -/
def pyStrip (s : String) : String :=
  ⟨((s.data.dropWhile Char.isWhitespace).reverse.dropWhile Char.isWhitespace).reverse⟩

/-- The `for i, x in enumerate(xs): if p(x): idx = i; break` search
loop: index of the first element satisfying `p`, if any. -/
def pyFindIdx {α : Type} (p : α → Bool) : List α → Option ℕ
  | [] => none
  | a :: rest => if p a then some 0 else (pyFindIdx p rest).map (· + 1)

/-- Python `sep.join(parts)`. -/
def joinSep (sep : String) : List String → String
  | [] => ""
  | [x] => x
  | x :: y :: rest => x ++ sep ++ joinSep sep (y :: rest)

/-- Python substring containment `needle in hay`. -/
def strContains (hay needle : String) : Bool :=
  hay.data.tails.any (fun t => needle.data.isPrefixOf t)

/-- Python `s.split(c)[0]`: the prefix of `s` before the first
occurrence of `c` (all of `s` when `c` does not occur). -/
def beforeFirst (c : Char) (s : String) : String :=
  ⟨s.data.takeWhile (fun d => d ≠ c)⟩

/-- Python `s[-8:]`: the last eight characters of `s` (all of `s` when
it is shorter). -/
def lastEight (s : String) : String :=
  ⟨s.data.drop (s.data.length - 8)⟩

/-- Value of a decimal digit character. -/
def digitVal (c : Char) : ℕ := c.toNat - 48

/-- Python `int(s)` on the digit strings sliced out of option symbols:
a non-empty all-digit string parses to its value, anything else raises
`ValueError` (modelled as `none`). -/
def parseIntStr (s : String) : Option Int :=
  if s.data ≠ [] ∧ s.data.all Char.isDigit then
    some (s.data.foldl (fun acc c => acc * 10 + (digitVal c : Int)) 0)
  else none

/-- Python `str(x)` for the optional integers interpolated into
messages and symbol filters (`str(None)` is the string `None`). -/
def strOfOptInt : Option Int → String
  | some v => toString v
  | none => "None"

/-- First element of an association list with the given key, if any
(`dict.get`); Python dict reads on our insertion-ordered lists. -/
def assocLookup {β : Type} (m : List (String × β)) (k : String) : Option β :=
  (m.find? (fun p => p.1 == k)).map Prod.snd

/- ----------------------------------------------------------------
   validators.py: static tables and indicator validation
   ---------------------------------------------------------------- -/

/-- `VALID_TIMEFRAMES` from validators.py. -/
def VALID_TIMEFRAMES : List String :=
  ["1m", "5m", "15m", "30m", "1h", "2h", "4h", "1d", "1w", "1M"]

/-- `VALID_EXCHANGES` from validators.py. -/
def VALID_EXCHANGES : List String :=
  ["BINANCE", "BINANCEUS", "BITCOKE", "BITFINEX", "BITSTAMP", "BITTREX", "BYBIT",
   "CAPITALCOM", "CEXIO", "CURRENCYCOM", "EASYMARKETS", "EIGHTCAP", "EXMO",
   "FOREXCOM", "FTX", "FXCM", "GEMINI", "GLOBALPRIME", "INDEX", "KRAKEN", "OANDA",
   "OKCOIN", "PEPPERSTONE", "SAXO", "SKILLING", "TIMEX", "TRADESTATION", "VANTAGE",
   "KUCOIN", "ADX", "ALOR", "AMEX", "ASX", "ATHEX", "BAHRAIN", "BASESWAP", "BCBA",
   "BCS", "BELEX", "BER", "BET", "BINGX", "BIST", "BISWAP", "BITAZZA", "BITBNS",
   "BITFLYER", "BITGET", "BITHUMB", "BITKUB", "BITMART", "BITMEX", "BITPANDAPRO",
   "BITRUE", "BITVAVO", "BIVA", "BLACKBULL", "BLOFIN", "BME", "BMFBOVESPA", "BMV",
   "BSE", "BSSE", "BTSE", "BVB", "BVC", "BVCV", "BVL", "BVMT", "BX", "CAMELOT",
   "CAMELOT3ARBITRUM", "CBOE", "CBOT", "CBOT_MINI", "CFFEX", "CITYINDEX", "CME",
   "CME_MINI", "COINBASE", "COINEX", "COMEX", "COMEX_MINI", "CRYPTO", "CRYPTOCOM",
   "CRYPTOCAP", "CSE", "CSECY", "CSELK", "CSEMA", "CURVE", "DELTA", "DERIBIT",
   "DFM", "DJ", "DSEBD", "DUS", "DYDX", "ECONOMICS", "EGX", "EUREX", "EURONEXT",
   "EUROTLX", "FINRA", "FSE", "FTSEMYX", "FWB", "FX", "FX_IDC", "FXOPEN", "GATEIO",
   "GETTEX", "GPW", "HAM", "HAN", "HITBTC", "HKEX", "HNX", "HONEYSWAP",
   "HONEYSWAPPOLYGON", "HOSE", "HSI", "HTX", "HUOBI", "ICEAD", "ICEEUR", "ICESG",
   "ICEUS", "IDX", "JSE", "KATANA", "KRX", "KSE", "LS", "LSE", "LSIN", "LSX",
   "LUXSE", "MATBAROFEX", "MCX", "MERCADO", "MEXC", "MGEX", "MIL", "MMFINANCE",
   "MOEX", "MUN", "MYX", "NAG", "NASDAQ", "NASDAQDUBAI", "NCDEX", "NEO",
   "NEWCONNECT", "NGM", "NSE", "NSEKE", "NSENG", "NYMEX", "NYMEX_MINI", "NYSE",
   "NZX", "OKCOIN", "OKX", "OMXCOP", "OMXHEX", "OMXICE", "OMXRSE", "OMXSTO",
   "OMXTSE", "OMXVSE", "ORCA", "OSE", "OSL", "OTC", "PANCAKESWAP",
   "PANCAKESWAP3BSC", "PANCAKESWAP3ETH", "PANGOLIN", "PHEMEX", "PHILLIPNOVA",
   "PIONEX", "POLONIEX", "PSE", "PSECZ", "PSX", "PULSEX", "QSE", "QUICKSWAP",
   "QUICKSWAP3POLYGONZKEVM", "QUICKSWAP3POLYGON", "RAYDIUM", "RUS", "SAPSE",
   "SET", "SGX", "SHFE", "SIX", "SP", "SPARKS", "SPOOKYSWAP", "SSE", "SUSHISWAP",
   "SUSHISWAPPOLYGON", "SWB", "SZSE", "TADAWUL", "TAIFEX", "TASE", "TFEX", "TFX",
   "THRUSTER3", "TOCOM", "TOKENIZE", "TPEX", "TRADEGATE", "TRADERJOE", "TSE",
   "TSX", "TSXV", "TVC", "TWSE", "UNISWAP", "UNISWAP3ARBITRUM", "UNISWAP3AVALANCHE",
   "UNISWAP3BASE", "UNISWAP3BSC", "UNISWAP3ETH", "UNISWAP3OPTIMISM",
   "UNISWAP3POLYGON", "UPBIT", "UPCOM", "VELODROME", "VERSEETH", "VIE",
   "VVSFINANCE", "WAGYUSWAP", "WHITEBIT", "WOONETWORK", "XETR", "XEXCHANGE", "ZOOMEX"]

/-- `INDICATOR_MAPPING` from validators.py: short name, TradingView
indicator id, version string, in source order. -/
def INDICATOR_MAPPING : List (String × String × String) :=
  [("RSI", "STD;RSI", "44.0"),
   ("MACD", "STD;MACD", "38.0"),
   ("CCI", "STD;CCI", "37.0"),
   ("BB", "STD;Bollinger_Bands", "32.0")]

/-- `INDICATOR_FIELD_MAPPING` from validators.py: short name to the
ordered source-field-key / output-field-name pairs. -/
def INDICATOR_FIELD_MAPPING : List (String × List (String × String)) :=
  [("RSI", [("2", "Relative_Strength_Index"),
            ("0", "Relative_Strength_Index_Moving_Average")]),
   ("MACD", [("4", "Moving_Average_Convergence_Divergence_macd"),
             ("5", "Moving_Average_Convergence_Divergence_signal"),
             ("2", "Moving_Average_Convergence_Divergence_histogram")]),
   ("CCI", [("0", "Commodity_Channel_Index"),
            ("1", "Commodity_Channel_Index_Moving_Average")]),
   ("BB", [("0", "Bollinger_Bands_middle_line"),
           ("1", "Bollinger_Bands_top_line"),
           ("2", "Bollinger_Bands_bottom_line")])]

/-- `VALID_INDICATORS` from validators.py. -/
def VALID_INDICATORS : List String := INDICATOR_MAPPING.map Prod.fst

/-- The validation error text of `validate_indicators` for one
unrecognized indicator name. -/
def notRecognizedMsg (name : String) : String :=
  "Indicator \x27" ++ name ++ "\x27 not recognized. Valid indicators: " ++
    joinSep ", " VALID_INDICATORS

/-- The over-quota warning text of `validate_indicators`. -/
def quotaWarning (n : ℕ) : String :=
  "More than 2 indicators requested (" ++ toString n ++ "). " ++
    "The library will fetch indicators in batches of 2 per request to work " ++
    "around free account limits."

/-- `validate_indicators` from validators.py: maps each name through
`INDICATOR_MAPPING` after upper-casing, collecting ids, versions, fatal
errors for unrecognized names, and a non-fatal over-quota warning.
Returns `(indicator_ids, indicator_versions, errors, warnings)`. -/
def validateIndicators (indicators : List String) :
    List String × List String × List String × List String :=
  let warnings := if indicators.length > 2 then [quotaWarning indicators.length] else []
  let step := fun (acc : List String × List String × List String) (name : String) =>
    match assocLookup INDICATOR_MAPPING (pyUpper name) with
    | some (indId, indVersion) => (acc.1 ++ [indId], acc.2.1 ++ [indVersion], acc.2.2)
    | none => (acc.1, acc.2.1, acc.2.2 ++ [notRecognizedMsg name])
  let r := indicators.foldl step ([], [], [])
  (r.1, r.2.1, r.2.2, warnings)

/- ----------------------------------------------------------------
   utils.py: merge_ohlc_with_indicators
   ---------------------------------------------------------------- -/

/-- One OHLC row of the streamer payload (`ohlc` entries read through
`.get` in utils.py); `idx` is the payload key `index`. -/
structure OhlcEntry where
  timestamp : Int
  opn : Fx
  high : Fx
  low : Fx
  close : Fx
  volume : Fx
  idx : Int
  deriving DecidableEq, Repr

/-- One indicator series point: an optional timestamp and the
positional-key-to-value mapping of the payload. -/
structure IndPoint where
  timestamp : Option Int
  fields : List (String × Fx)
  deriving DecidableEq, Repr

/-- Input of `merge_ohlc_with_indicators`: the `ohlc` list and the
`indicator` mapping (TradingView key to series). -/
structure MergeData where
  ohlc : List OhlcEntry
  indicator : List (String × List IndPoint)
  deriving DecidableEq, Repr

/-- One merged output row: the copied OHLC base fields, the rendered
local time, and the named indicator output fields in attachment
order.  All output field names in the catalog are pairwise distinct,
so the append-only `extra` list has the same lookup behaviour as the
Python dict it models. -/
structure MergedRow where
  opn : Fx
  high : Fx
  low : Fx
  close : Fx
  volume : Fx
  idx : Int
  datetimeIst : String
  extra : List (String × Fx)
  deriving DecidableEq, Repr

/-- An element of the heterogeneous list returned by
`merge_ohlc_with_indicators`: either a merged row or the trailing
sentinel dict carrying `_merge_errors`. -/
inductive MergedItem where
  | row (r : MergedRow)
  | errs (es : List String)
  deriving DecidableEq, Repr

/-- The `available_indicators` construction of utils.py: for each
catalog entry in order, the first input series stored under the
matching TradingView key, tagged with the short name. -/
def availIndicators (ind : List (String × List IndPoint)) :
    List (String × List IndPoint) :=
  INDICATOR_MAPPING.filterMap (fun entry =>
    (ind.find? (fun p => p.1 == entry.2.1)).map (fun p => (entry.1, p.2)))

/-- Lookup of the per-indicator timestamp map of utils.py: the map is
built first-occurrence-wins over points with a non-`None` timestamp and
then queried once per candle, which is exactly a first `find?` on the
series. -/
def tsLookup (pts : List IndPoint) (t : Int) : Option IndPoint :=
  pts.find? (fun p => p.timestamp == some t)

/-- The merge-warning text recorded when an indicator has no point at a
candle timestamp. -/
def missingMsg (short : String) (t : Int) (i : ℕ) : String :=
  "Indicator \x27" ++ short ++ "\x27 missing for OHLC timestamp " ++
    toString t ++ " (index " ++ toString i ++ ")"

/-- The base merged entry built from one OHLC row (both branches of
utils.py build this same dict literal). -/
def baseRow (render : Int → String) (e : OhlcEntry) : MergedRow :=
  { opn := e.opn, high := e.high, low := e.low, close := e.close,
    volume := e.volume, idx := e.idx, datetimeIst := render e.timestamp,
    extra := [] }

/-- The indicator fields attached to one merged row together with the
warnings recorded for it: the inner loop of utils.py over
`indicator_maps`, with `value = indicator_entry.get(index_key, 0)`. -/
def rowExtra (maps : List (String × List IndPoint)) (t : Int) (i : ℕ) :
    List (String × Fx) × List String :=
  maps.foldl (fun acc sp =>
    match tsLookup sp.2 t with
    | none => (acc.1, acc.2 ++ [missingMsg sp.1 t i])
    | some p =>
      let fm := (assocLookup INDICATOR_FIELD_MAPPING sp.1).getD []
      (acc.1 ++ fm.map (fun kf => (kf.2, ((assocLookup p.fields kf.1).getD 0))), acc.2))
    ([], [])

/-- `merge_ohlc_with_indicators` from utils.py.  `render` is the
external timestamp renderer (`convert_timestamp_to_indian_time`).
Raising `ValueError` is modelled as `Except.error`; the returned list
carries one row per input candle in order, followed by the
`_merge_errors` sentinel when any warnings were recorded. -/
def mergeOhlcWithIndicators (render : Int → String) (d : MergeData) :
    Except String (List MergedItem) :=
  if d.ohlc.isEmpty then
    .error "No OHLC data found in response from TradingView. Please verify the JWT token and parameters."
  else
    let avail := availIndicators d.indicator
    if avail.isEmpty then
      .ok (d.ohlc.map (fun e => .row (baseRow render e)))
    else
      let rowOf := fun (ie : ℕ × OhlcEntry) =>
        let ex := rowExtra avail ie.2.timestamp ie.1
        ({ baseRow render ie.2 with extra := ex.1 }, ex.2)
      let rows := d.ohlc.enum.map (fun ie => (rowOf ie).1)
      let errors := (d.ohlc.enum.map (fun ie => (rowOf ie).2)).flatten
      .ok (rows.map .row ++ if errors.isEmpty then [] else [.errs errors])

/-- State-threaded form of `merge_ohlc_with_indicators`: the second
component is the caller-visible input store after the call.  In the
source (utils.py lines 54-175) every structure written to is freshly
allocated inside the call (`ts_map`, `merged_entry`, `merged_data`,
the `list(indicator_values)` defensive copy at line 86), and no
statement assigns into `data`, its lists or their elements, so the
translation returns the store unchanged. -/
def mergeTracked (render : Int → String) (d : MergeData) :
    Except String (List MergedItem) × MergeData :=
  (mergeOhlcWithIndicators render d, d)

/- ----------------------------------------------------------------
   tradingview_tools.py: fetch_historical_data
   ---------------------------------------------------------------- -/

/-- The `ohlc` entry of a streamer batch response, distinguishing a
missing key, a JSON `null`, and a list (`resp.get` treats the first
two differently from a present list). -/
inductive OhlcField where
  | missing
  | null
  | val (l : List OhlcEntry)
  deriving DecidableEq, Repr

/-- One raw streamer batch response. -/
structure StreamResp where
  ohlc : OhlcField
  indicator : Option (List (String × List IndPoint))
  errors : List String
  deriving DecidableEq, Repr

/-- One observable interaction with the outside world performed by
`fetch_historical_data`: a `get_valid_jwt_token` call or a
`Streamer.stream` call with the requested candle count and indicator
id/version batch. -/
inductive NetCall where
  | token
  | stream (periods : Int) (ids : List String) (versions : List String)
  deriving DecidableEq, Repr

/-- Environment of `fetch_historical_data`: the `TRADINGVIEW_COOKIE`
variable, the (deterministic) outcome of token acquisition, the
streaming data source keyed by request parameters, and the timestamp
renderer used by the merger. -/
structure FetchEnv where
  cookie : Option String
  tokenResult : Except String String
  stream : Int → List String → List String → Except String StreamResp
  render : Int → String

/-- Metadata echoed by a successful `fetch_historical_data`; the
zero-indicator path carries no `batches` key. -/
structure FetchMeta where
  exchange : String
  symbol : String
  timeframe : String
  candlesCount : ℕ
  indicators : List String
  batches : Option ℕ
  deriving DecidableEq, Repr

/-- Result dictionary of `fetch_historical_data`; absent keys are
`none` / `[]`. -/
structure FetchResult where
  success : Bool
  data : List MergedItem
  errors : List String
  warnings : List String
  message : Option String
  metadata : Option FetchMeta
  deriving DecidableEq, Repr

/-- Python `lst[i:i+2]` chunking with step 2 (`BATCH_SIZE = 2` in
tradingview_tools.py line 207-209). -/
def chunk2 {α : Type} : List α → List (List α)
  | [] => []
  | [a] => [[a]]
  | a :: b :: rest => [a, b] :: chunk2 rest

/-- Writing `resp.get('ohlc', [])` into the accumulator: a missing key
contributes the empty list, a `null` value stays `None`, a list is
kept. -/
def resolveOhlcField : OhlcField → Option (List OhlcEntry)
  | .missing => some []
  | .null => none
  | .val l => some l

/-- Extending `combined_response['indicator'][key]` for one series:
append to the entry in place when the key exists, else add the key at
the end. -/
def extendAssoc (m : List (String × List IndPoint)) (k : String)
    (vs : List IndPoint) : List (String × List IndPoint) :=
  if (assocLookup m k).isSome then
    m.map (fun p => if p.1 == k then (p.1, p.2 ++ vs) else p)
  else m ++ [(k, vs)]

/-- Folding one batch response into the combined accumulator
(tradingview_tools.py lines 275-291): the OHLC backbone is written
only while it is still `None`, every response contributes its
indicator series and streamer errors. -/
def combineStep (st : Option (List OhlcEntry) × List (String × List IndPoint) × List String)
    (resp : StreamResp) :
    Option (List OhlcEntry) × List (String × List IndPoint) × List String :=
  let ohlc := match st.1 with
    | none => resolveOhlcField resp.ohlc
    | some l => some l
  let ind := (resp.indicator.getD []).foldl
    (fun acc kv => extendAssoc acc kv.1 kv.2) st.2.1
  (ohlc, ind, st.2.2 ++ resp.errors)

/-- Combined response after folding all completed batches. -/
structure CombinedData where
  ohlc : List OhlcEntry
  indicator : List (String × List IndPoint)
  respErrors : List String
  deriving DecidableEq, Repr

/-- Combination of the completed batch results
(tradingview_tools.py lines 274-295).  The input list holds the
`(batch_index, response)` pairs in arrival order; like the source,
which iterates `sorted(batch_results.keys())` over a dict, the
processing order is the ascending batch index order.  The final
`if not combined_response.get('ohlc')` raise is the `Except.error`. -/
def combineBatches (results : List (ℕ × StreamResp)) : Except String CombinedData :=
  let ks := List.insertionSort (fun a b : ℕ => a ≤ b) (results.map Prod.fst)
  let st := ks.foldl (fun st k =>
    match results.lookup k with
    | some resp => combineStep st resp
    | none => st) (none, [], [])
  match st.1 with
  | some l =>
    if l.isEmpty then .error "Failed to fetch OHLC data from TradingView across batches."
    else .ok ⟨l, st.2.1, st.2.2⟩
  | none => .error "Failed to fetch OHLC data from TradingView across batches."

/-- The merge input assembled from a single streamer response by the
zero-indicator path (`merge_ohlc_with_indicators(data)`): the merger
reads `data.get('ohlc', [])` and `data.get('indicator')`, and a `null`
OHLC value is as empty as a missing key for its emptiness test. -/
def mergeDataOfResp (resp : StreamResp) : MergeData :=
  { ohlc := (resolveOhlcField resp.ohlc).getD [],
    indicator := resp.indicator.getD [] }

/-- The merge input assembled from the combined batches. -/
def mergeDataOfCombined (c : CombinedData) : MergeData :=
  { ohlc := c.ohlc, indicator := c.indicator }

/-- One batch worker run (`fetch_batch` in tradingview_tools.py lines
214-253) for batch `idx`: acquire a token (a failure is recorded as a
`Token generation failed` string), then stream `numb + idx` candles
for the batch ids/versions (an exception is recorded as a
`Batch _ failed` string).  Returns the network calls made, the
successful `(index, response)` pair if any, and the recorded error if
any. -/
def runBatch (env : FetchEnv) (numb : Int) (idx : ℕ)
    (bids bvers : List String) :
    List NetCall × List (ℕ × StreamResp) × List String :=
  match env.tokenResult with
  | .error e => ([.token], [], ["Token generation failed: " ++ e])
  | .ok _ =>
    match env.stream (numb + (idx : Int)) bids bvers with
    | .error e => ([.token, .stream (numb + (idx : Int)) bids bvers], [],
                   ["Batch " ++ toString idx ++ " failed: " ++ e])
    | .ok resp => ([.token, .stream (numb + (idx : Int)) bids bvers], [(idx, resp)], [])

/-- All batch worker runs, in submission order, starting at batch
index `idx`. -/
def runBatches (env : FetchEnv) (numb : Int) (idx : ℕ) :
    List (List String × List String) →
    List NetCall × List (ℕ × StreamResp) × List String
  | [] => ([], [], [])
  | bv :: rest =>
    let r := runBatch env numb idx bv.1 bv.2
    let rs := runBatches env numb (idx + 1) rest
    (r.1 ++ rs.1, r.2.1 ++ rs.2.1, r.2.2 ++ rs.2.2)

/-- Exceptions flowing inside the `try` of `fetch_historical_data`:
`ValueError` reaches the first handler, everything else (including
`ValidationError`) the second. -/
inductive PyExc where
  | valueError (msg : String)
  | other (msg : String)
  deriving DecidableEq, Repr

/-- The `success=False` dictionary of the `except ValueError` handler
(tradingview_tools.py lines 323-329). -/
def valueErrorResult (valErrors : List String) (e : String) : FetchResult :=
  { success := false, data := [], errors := valErrors ++ [e],
    warnings := [], message := some ("Data processing error: " ++ e),
    metadata := none }

/-- The `success=False` dictionary of the `except Exception` handler
(tradingview_tools.py lines 330-336). -/
def otherErrorResult (valErrors : List String) (e : String) : FetchResult :=
  { success := false, data := [],
    errors := valErrors ++ ["TradingView API error: " ++ e],
    warnings := [],
    message := some ("Failed to fetch data from TradingView: " ++ e),
    metadata := none }

/-- The cookie-gate message of tradingview_tools.py lines 162-166. -/
def notConnectedMsg : String :=
  "Account is not connected with MCP. Please set TRADINGVIEW_COOKIE environment variable to connect your account."

/-- Body of the `try` block of `fetch_historical_data` (lines 160-321)
after indicator validation, together with the network calls it makes:
cookie gate, token acquisition, then either the single zero-indicator
fetch or the batched fetch + combination + merge + sentinel strip. -/
def fetchBody (env : FetchEnv) (exchange symbol timeframe : String)
    (numb : Int) (indicators : List String)
    (ids versions : List String) (valErrors warnings : List String) :
    Except PyExc FetchResult × List NetCall :=
  match env.cookie with
  | none => (.error (.other notConnectedMsg), [])
  | some _ =>
    match env.tokenResult with
    | .error e => (.error (.other e), [.token])
    | .ok _jwt =>
      if ids.isEmpty then
        ((match env.stream numb [] [] with
          | .error e => .error (.other e)
          | .ok resp =>
            match mergeOhlcWithIndicators env.render (mergeDataOfResp resp) with
            | .error e => .error (.valueError e)
            | .ok merged =>
              .ok { success := true, data := merged, errors := valErrors,
                    warnings := [],
                    message := none,
                    metadata := some { exchange := exchange, symbol := symbol,
                                       timeframe := timeframe,
                                       candlesCount := merged.length,
                                       indicators := indicators,
                                       batches := none } }),
         [NetCall.token, NetCall.stream numb [] []])
      else
        let batched := (chunk2 ids).zip (chunk2 versions)
        let runs := runBatches env numb 0 batched
        ((match combineBatches runs.2.1 with
          | .error e => .error (.valueError e)
          | .ok combined =>
            match mergeOhlcWithIndicators env.render (mergeDataOfCombined combined) with
            | .error e => .error (.valueError e)
            | .ok merged =>
              let stripped := match merged.getLast? with
                | some (.errs es) => (merged.dropLast, es)
                | _ => (merged, [])
              let allErrors := valErrors ++ (runs.2.2 ++ combined.respErrors) ++ stripped.2
              .ok { success := true, data := stripped.1, errors := allErrors,
                    warnings := warnings, message := none,
                    metadata := some { exchange := exchange, symbol := symbol,
                                       timeframe := timeframe,
                                       candlesCount := stripped.1.length,
                                       indicators := indicators,
                                       batches := some (chunk2 ids).length } }),
         [NetCall.token] ++ runs.1)

/-- `fetch_historical_data` from tradingview_tools.py (lines 105-336).
The outer `Except.error` is a raised `ValidationError` from the
parameter validators; every exception inside the `try` is converted by
the two handlers into a `success=False` dictionary.  The second
component lists the token acquisitions and stream fetches performed,
in the canonical submission order of the worker pool. -/
def fetchHistoricalData (env : FetchEnv) (exchange symbol timeframe : String)
    (numb : Int) (indicators : List String) :
    Except String FetchResult × List NetCall :=
  if pyUpper exchange ∉ VALID_EXCHANGES then
    (.error ("Invalid exchange \x27" ++ exchange ++ "\x27. Must be one of: " ++
      joinSep ", " (VALID_EXCHANGES.take 10) ++ "... (and " ++
      toString (VALID_EXCHANGES.length - 10) ++ " more)"), [])
  else if (pyStrip symbol = "") then
    (.error "Symbol is required. Please provide a valid trading symbol (e.g., \x27AAPL\x27, \x27NIFTY\x27, \x27BTCUSD\x27)", [])
  else if timeframe ∉ VALID_TIMEFRAMES then
    (.error ("Invalid timeframe \x27" ++ timeframe ++ "\x27. Must be one of: " ++
      joinSep ", " VALID_TIMEFRAMES), [])
  else if numb < 1 ∨ numb > 5000 then
    (.error ("Number of candles must be between 1 and 5000. Got: " ++ toString numb), [])
  else
    let v := validateIndicators indicators
    let ids := v.1
    let versions := v.2.1
    let valErrors := v.2.2.1
    let warnings := v.2.2.2
    if valErrors.isEmpty then
      let r := fetchBody env (pyUpper exchange) (pyStrip symbol) timeframe numb indicators
        ids versions valErrors warnings
      ((match r.1 with
        | .ok res => .ok res
        | .error (.valueError e) => .ok (valueErrorResult valErrors e)
        | .error (.other e) => .ok (otherErrorResult valErrors e)), r.2)
    else
      (.ok { success := false, data := [], errors := valErrors, warnings := [],
             message := some ("Validation failed: " ++ joinSep "; " valErrors),
             metadata := none }, [])

/- ----------------------------------------------------------------
   tradingview_tools.py: process_option_chain_with_analysis
   ---------------------------------------------------------------- -/

/-- Option side (`option-type` column). -/
inductive OptKind where
  | call
  | put
  deriving DecidableEq, Repr

/-- One raw option row after mapping the scanner `fields` onto the
`f` values (tradingview_tools.py lines 905-916); columns absent from a
row are `none`. -/
structure RawOpt where
  s : String
  strike : Option Fx
  optionType : Option OptKind
  expiration : Option Int
  ask : Option Fx
  bid : Option Fx
  delta : Option Fx
  gamma : Option Fx
  theta : Option Fx
  vega : Option Fx
  rho : Option Fx
  iv : Option Fx
  bidIv : Option Fx
  askIv : Option Fx
  theoPrice : Option Fx
  deriving DecidableEq, Repr

/-- The per-leg `option_info` dict (lines 944-959). -/
structure OptionInfo where
  symbol : String
  ask : Option Fx
  bid : Option Fx
  delta : Option Fx
  gamma : Option Fx
  theta : Option Fx
  vega : Option Fx
  rho : Option Fx
  iv : Option Fx
  bidIv : Option Fx
  askIv : Option Fx
  theoPrice : Fx
  intrinsicValue : Fx
  timeValue : Fx
  deriving DecidableEq, Repr

/-- One strike entry of an expiry group (lines 926-932). -/
structure StrikeGroup where
  strike : Fx
  call : Option OptionInfo
  put : Option OptionInfo
  distanceFromSpot : Fx
  deriving DecidableEq, Repr

/-- One element of the flat option array (lines 1013-1031): a copied
leg dict extended with side, strike and distance. -/
structure FlatOpt where
  info : OptionInfo
  kind : OptKind
  strikePrice : Fx
  distanceFromSpot : Fx
  deriving DecidableEq, Repr

/-- The `analytics` dict (lines 1109-1115). -/
structure Analytics where
  atmStrike : Fx
  totalCallDelta : Fx
  totalPutDelta : Fx
  netDelta : Fx
  totalStrikes : ℕ
  deriving DecidableEq, Repr

/-- The `expiry_date` argument after the `int`/string dispatch of
lines 869-882: Python `None`, the string `latest` in any case, an
integer (or integer-convertible string), or a non-convertible
string. -/
inductive ExpiryArg where
  | pyNone
  | latestMode
  | specific (d : Int)
  | badString (s : String)
  deriving DecidableEq, Repr

/-- Environment of `process_option_chain_with_analysis`: the outcome
of `get_current_spot_price` (its failure message on error), the rows
held by the option scanner (a request with an expiry filter returns
the rows whose `expiration` column equals the filter), a scanner
failure, and the current `YYYYMMDD` date. -/
structure ChainEnv where
  spot : Except String Fx
  rows : List RawOpt
  chainFail : Option String
  today : Int

/-- Result dictionary of `process_option_chain_with_analysis`.
`analytics = none` models the empty `analytics` dict of the
no-options case; `availableExpiries` models the `available_expiries`
key, which no return statement of this function ever sets. -/
structure ChainResult where
  success : Bool
  message : Option String
  spotPrice : Option Fx
  latestExpiry : Option Int
  analytics : Option Analytics
  data : List FlatOpt
  warnings : List String
  availableExpiries : Option (List Int)
  deriving DecidableEq, Repr

/-- A bare `success=False` return of the function. -/
def chainFailure (msg : String) : ChainResult :=
  { success := false, message := some msg, spotPrice := none,
    latestExpiry := none, analytics := none, data := [], warnings := [],
    availableExpiries := none }

/-- `fetch_option_chain_data` (lines 605-672): an exception becomes a
`success=False` with a prefixed message; otherwise the scanner returns
the rows matching the filter conditions. -/
def fetchOptionChainData (env : ChainEnv) (filter : Option Int) :
    Except String (List RawOpt) :=
  match env.chainFail with
  | some e => .error ("Failed to fetch option chain: " ++ e)
  | none =>
    match filter with
    | none => .ok env.rows
    | some d => .ok (env.rows.filter (fun r => r.expiration == some d))

/-- Attach a leg to a strike entry (line 961). -/
def setLeg (ty : OptKind) (info : OptionInfo) (g : StrikeGroup) : StrikeGroup :=
  match ty with
  | .call => { g with call := some info }
  | .put => { g with put := some info }

/-- Build the `option_info` dict for one raw row (lines 934-959):
intrinsic value from the side and the spot, `theoPrice` with the
falsy-`None` default, values rounded to two decimals. -/
def optionInfoOf (spot : Fx) (k : Fx) (ty : OptKind) (r : RawOpt) : OptionInfo :=
  let intrinsic := match ty with
    | .call => max 0 (spot - k)
    | .put => max 0 (k - spot)
  let theo := r.theoPrice.getD 0
  { symbol := r.s, ask := r.ask, bid := r.bid, delta := r.delta,
    gamma := r.gamma, theta := r.theta, vega := r.vega, rho := r.rho,
    iv := r.iv, bidIv := r.bidIv, askIv := r.askIv, theoPrice := theo,
    intrinsicValue := round2 intrinsic, timeValue := round2 (theo - intrinsic) }

/-- Fold one raw row into the expiry/strike grouping (lines 905-961);
rows missing strike, side or expiration are skipped; dict insertion
order is preserved, updates keep the position of existing keys. -/
def groupStep (spot : Fx) (groups : List (Int × List (Fx × StrikeGroup)))
    (r : RawOpt) : List (Int × List (Fx × StrikeGroup)) :=
  match r.strike, r.optionType, r.expiration with
  | some k, some ty, some ex =>
    let g1 := if (groups.lookup ex).isSome then groups else groups ++ [(ex, [])]
    let strikes := (g1.lookup ex).getD []
    let strikes1 := if (strikes.lookup k).isSome then strikes
      else strikes ++ [(k, { strike := k, call := none, put := none,
                             distanceFromSpot := pyAbs (k - spot) })]
    let info := optionInfoOf spot k ty r
    let strikes2 := strikes1.map (fun p => if p.1 == k then (p.1, setLeg ty info p.2) else p)
    g1.map (fun q => if q.1 == ex then (q.1, strikes2) else q)
  | _, _, _ => groups

/-- The expiry/strike grouping of all raw rows. -/
def buildGroups (spot : Fx) (rows : List RawOpt) :
    List (Int × List (Fx × StrikeGroup)) :=
  rows.foldl (groupStep spot) []

/-- Warning recorded when fewer ITM strikes are available than
requested (lines 990-993). -/
def itmShortWarning (expiration : Int) (topN : Int) (avail : ℕ) : String :=
  "Expiry " ++ toString expiration ++ ": Requested " ++ toString topN ++
    " ITM strikes but only " ++ toString avail ++ " available"

/-- Warning recorded when fewer OTM strikes are available than
requested (lines 995-998). -/
def otmShortWarning (expiration : Int) (topN : Int) (avail : ℕ) : String :=
  "Expiry " ++ toString expiration ++ ": Requested " ++ toString topN ++
    " OTM strikes but only " ++ toString avail ++ " available"

/-- Warning recorded when the request exceeds the whole group
(lines 1000-1006). -/
def excessWarning (expiration : Int) (topN : Int) (total : ℕ) : String :=
  "Expiry " ++ toString expiration ++ ": Cannot return " ++ toString topN ++
    " strikes in each direction. Total strikes available: " ++ toString total ++
    ". Returning all available strikes."

/-- The ITM/OTM window selection for one expiry group
(lines 967-1006): sort the strike entries ascending, find the first
index at or above the spot (0 when none is), take the last `topN`
entries below it and the first `topN` entries from it on, recording
shortfall warnings.  Returns `(itm, otm, warnings)`. -/
def selectWindow (spot : Fx) (topN : Int) (expiration : Int)
    (strikes : List (Fx × StrikeGroup)) :
    List StrikeGroup × List StrikeGroup × List String :=
  let sorted := List.insertionSort (fun a b : StrikeGroup => a.strike ≤ b.strike)
    (strikes.map Prod.snd)
  let atmIndex := (pyFindIdx (fun g => decide (spot ≤ g.strike)) sorted).getD 0
  let itmPool := sorted.take atmIndex
  let otmPool := sorted.drop atmIndex
  let actualItm := min topN (itmPool.length : Int)
  let actualOtm := min topN (otmPool.length : Int)
  let itm := if actualItm > 0 then itmPool.drop (itmPool.length - actualItm.toNat) else []
  let otm := otmPool.take actualOtm.toNat
  let w1 := if (itmPool.length : Int) < topN then [itmShortWarning expiration topN itmPool.length] else []
  let w2 := if (otmPool.length : Int) < topN then [otmShortWarning expiration topN otmPool.length] else []
  let w3 := if topN > (itmPool.length : Int) + (otmPool.length : Int) then
      [excessWarning expiration topN (itmPool.length + otmPool.length)] else []
  (itm, otm, w1 ++ w2 ++ w3)

/-- Flatten the selected strike entries of one expiry into per-leg
rows, call before put at each strike (lines 1008-1031). -/
def flattenSelected (sel : List StrikeGroup) : List FlatOpt :=
  (sel.map (fun g =>
    (match g.call with
     | some ci => [{ info := ci, kind := OptKind.call, strikePrice := g.strike,
                     distanceFromSpot := g.distanceFromSpot }]
     | none => []) ++
    (match g.put with
     | some pin => [{ info := pin, kind := OptKind.put, strikePrice := g.strike,
                      distanceFromSpot := g.distanceFromSpot }]
     | none => []))).flatten

/-- The per-expiry loop of lines 967-1031: every expiry group, in
insertion order, contributes its flattened window and its warnings. -/
def flattenGroups (spot : Fx) (topN : Int)
    (groups : List (Int × List (Fx × StrikeGroup))) :
    List FlatOpt × List String :=
  groups.foldl (fun acc g =>
    let sel := selectWindow spot topN g.1 g.2
    (acc.1 ++ flattenSelected (sel.1 ++ sel.2.1), acc.2 ++ sel.2.2)) ([], [])

/-- Expiry extraction from a rendered option symbol (lines 1040-1054
and 1082-1093): the eight characters before the first `C` (else the
first `P`), parsed as an integer; rows whose symbol has neither letter
or whose slice does not parse are skipped. -/
def expiryOfSymbol (sym : String) : Option Int :=
  if strContains sym "C" then parseIntStr (lastEight (beforeFirst 'C' sym))
  else if strContains sym "P" then parseIntStr (lastEight (beforeFirst 'P' sym))
  else none

/-- Append a value to a list when it is not yet present (the
deduplicating collectors of lines 1039-1051 and the `set()` of
lines 1080-1093). -/
def dedupAppend (acc : List Int) (v : Int) : List Int :=
  if v ∈ acc then acc else acc ++ [v]

/-- All distinct expiries parsed from the flat options, in first-seen
order. -/
def collectExpiries (flat : List FlatOpt) : List Int :=
  flat.foldl (fun acc o =>
    match expiryOfSymbol o.info.symbol with
    | some v => dedupAppend acc v
    | none => acc) []

/-- Python `max` over a list of integers. -/
def listMax : List Int → Option Int
  | [] => none
  | x :: xs => some (xs.foldl max x)

/-- Python `min(iterable, key=...)` with first-minimal tie-breaking,
over strike prices keyed by distance to spot (line 1105). -/
def minByKey (key : Int → Int) : List Int → Option Int
  | [] => none
  | x :: xs => some (xs.foldl (fun b v => if key v < key b then v else b) x)

/-- Sum of the `delta` values of the legs of one side, in list order,
with the `.get` default that is never reached because the key is
always present (lines 1100-1101). -/
def sumDelta (l : List FlatOpt) (k : OptKind) : Fx :=
  (l.filter (fun o => o.kind == k)).foldl (fun s o => s + o.info.delta.getD 0) 0

/-- The `nearest`/`latest` expiry resolution and filtering of
lines 1035-1067.  Returns the filtered flat list and the
`latest_expiry` local set by this branch. -/
def latestFilter (env : ChainEnv) (flat : List FlatOpt) :
    List FlatOpt × Option Int :=
  let avail := List.insertionSort (fun a b : Int => a ≤ b) (collectExpiries flat)
  let latest := match avail.find? (fun e => decide (env.today ≤ e)) with
    | some e => some e
    | none => avail.getLast?
  match latest with
  | some le => (flat.filter (fun o => strContains o.info.symbol (toString le)), some le)
  | none => (flat, none)

/-- The analytics computation of lines 1076-1115 over a non-empty flat
list.  A `None` delta among the selected legs raises a `TypeError`
inside the `sum(...)` (the exception text is abstracted), which the
outer handler converts to a failure; otherwise the rounded delta
totals, the ATM strike and the distinct strike count are produced
together with the recomputed `latest_expiry`. -/
def computeAnalytics (spot : Fx) (flat : List FlatOpt) :
    Except String (Analytics × Option Int) :=
  let expiries := collectExpiries flat
  let latest := listMax expiries
  let latestOpts := flat.filter (fun o => strContains o.info.symbol (strOfOptInt latest))
  if latestOpts.any (fun o => o.info.delta.isNone) then
    .error "Failed to process option chain: TypeError"
  else
    let callSum := sumDelta latestOpts .call
    let putSum := sumDelta latestOpts .put
    let atm := match minByKey (fun x => pyAbs (x - spot)) (latestOpts.map (fun o => o.strikePrice)) with
      | some v => v
      | none => spot
    .ok ({ atmStrike := atm,
           totalCallDelta := round4 callSum,
           totalPutDelta := round4 putSum,
           netDelta := round4 (callSum + putSum),
           totalStrikes := ((latestOpts.map (fun o => o.strikePrice)).foldl dedupAppend []).length },
         latest)

/-- The invalid-`top_n` message of lines 845-849. -/
def invalidTopNMsg (topN : Int) : String :=
  "Invalid top_n value: " ++ toString topN ++ ". Must be a positive integer."

/-- `process_option_chain_with_analysis` from tradingview_tools.py
(lines 732-1133): `top_n` coercion, spot lookup, expiry dispatch,
chain fetch, grouping, per-expiry window selection and flattening,
expiry filtering, analytics, and result assembly.  Every failure is
the corresponding `success=False` dictionary. -/
def processOptionChain (env : ChainEnv) (expiry : ExpiryArg) (topN0 : Int) :
    ChainResult :=
  if topN0 < 0 then chainFailure (invalidTopNMsg topN0)
  else
    let topN := if topN0 = 0 then 1 else topN0
    match env.spot with
    | .error m => chainFailure ("Failed to fetch spot price: " ++ m)
    | .ok spot =>
      match expiry with
      | .badString s =>
        chainFailure ("Invalid expiry_date format: " ++ s ++
          ". Use integer (YYYYMMDD) or \x27latest\x27")
      | _ =>
        let fetchExpiry : Option Int := match expiry with
          | .specific d => some d
          | _ => none
        match fetchOptionChainData env fetchExpiry with
        | .error m => chainFailure ("Failed to fetch option chain: " ++ m)
        | .ok rows =>
          if rows.isEmpty then
            chainFailure "No option data available for the specified parameters"
          else
            let groups := buildGroups spot rows
            let fw := flattenGroups spot topN groups
            let filtered : List FlatOpt × Option Int := match expiry with
              | .latestMode => latestFilter env fw.1
              | .specific d => (fw.1.filter (fun o => strContains o.info.symbol (toString d)), none)
              | _ => (fw.1, none)
            let flat := filtered.1
            if flat.isEmpty then
              { success := true, message := none, spotPrice := some spot,
                latestExpiry := match expiry with
                  | .latestMode => filtered.2
                  | _ => none,
                analytics := none, data := [], warnings := fw.2,
                availableExpiries := none }
            else
              match computeAnalytics spot flat with
              | .error e => { chainFailure e with data := [] }
              | .ok ar =>
                { success := true, message := none, spotPrice := some spot,
                  latestExpiry := ar.2, analytics := some ar.1, data := flat,
                  warnings := fw.2, availableExpiries := none }

/- ----------------------------------------------------------------
   Specification-side definitions used by the theorems
   ---------------------------------------------------------------- -/

/-- The merged rows of a merger output, without the warnings
sentinel. -/
def rowsOf (out : List MergedItem) : List MergedRow :=
  out.filterMap (fun it => match it with
    | .row r => some r
    | .errs _ => none)

/-- Whether a network call is a stream fetch. -/
def isStreamCall : NetCall → Bool
  | .stream _ _ _ => true
  | .token => false

/-- The stream fetches that the batching plan prescribes: one per
batch, batch `i` requesting `numb + i` candles for the `i`-th id and
version chunks. -/
def plannedCalls (numb : Int) (ids versions : List String) : List NetCall :=
  ((chunk2 ids).zip (chunk2 versions)).enum.map
    (fun ib => NetCall.stream (numb + (ib.1 : Int)) ib.2.1 ib.2.2)

/-- The OHLC backbone the combination keeps, described directly: scan
the batch indices in ascending order and take the first response
whose `ohlc` entry resolves to a list (a missing key resolves to the
empty list, a `null` value to nothing). -/
def specBackbone (results : List (ℕ × StreamResp)) : Option (List OhlcEntry) :=
  (List.insertionSort (fun a b : ℕ => a ≤ b) (results.map Prod.fst)).findSome?
    (fun k => (results.lookup k).bind (fun r => resolveOhlcField r.ohlc))

/-- The output field names of one catalog indicator. -/
def catalogFieldNames (short : String) : List String :=
  ((assocLookup INDICATOR_FIELD_MAPPING short).getD []).map Prod.snd

/-- The indicator output fields that the merge attaches to the row of
one candle timestamp, written as a flat association list: for each
attached indicator in order, nothing when the series has no point at
the timestamp, and otherwise one pair per catalog field holding the
value of the matched point under the source key, defaulting to 0. -/
def rowFields (maps : List (String × List IndPoint)) (t : Int) : List (String × Fx) :=
  (maps.map (fun sp =>
    match tsLookup sp.2 t with
    | none => []
    | some p => ((assocLookup INDICATOR_FIELD_MAPPING sp.1).getD []).map
        (fun kf => (kf.2, (assocLookup p.fields kf.1).getD 0)))).flatten

/-- The per-row merge invariant of the specification: the base OHLC
fields of the row copy the candle, the local time renders the
timestamp of the candle, and for every attached indicator the mapped
output fields are on the row exactly when the series has a point at
that timestamp, then holding the values of the point with default 0
for an absent source key. -/
def rowMatches (render : Int → String) (ind : List (String × List IndPoint))
    (e : OhlcEntry) (r : MergedRow) : Prop :=
  r.opn = e.opn ∧ r.high = e.high ∧ r.low = e.low ∧ r.close = e.close ∧
  r.volume = e.volume ∧ r.idx = e.idx ∧ r.datetimeIst = render e.timestamp ∧
  ∀ sp ∈ availIndicators ind,
    (∀ p, tsLookup sp.2 e.timestamp = some p →
      ∀ kf ∈ (assocLookup INDICATOR_FIELD_MAPPING sp.1).getD [],
        assocLookup r.extra kf.2 = some ((assocLookup p.fields kf.1).getD 0)) ∧
    (tsLookup sp.2 e.timestamp = none →
      ∀ kf ∈ (assocLookup INDICATOR_FIELD_MAPPING sp.1).getD [],
        assocLookup r.extra kf.2 = none)

/- ----------------------------------------------------------------
   Concrete inputs for the witnesses and counterexamples
   ---------------------------------------------------------------- -/

/-- A call option row at strike 90 with expiry 20251104 and delta
0.00004, spot-relative fields unset. -/
def c1CallRow : RawOpt :=
  { s := "X20251104C90", strike := some (90 * fxOne), optionType := some .call,
    expiration := some 20251104, ask := none, bid := none, delta := some 4000,
    gamma := none, theta := none, vega := none, rho := none, iv := none,
    bidIv := none, askIv := none, theoPrice := none }

/-- A put option row at strike 110 with expiry 20251202. -/
def c1PutRow : RawOpt :=
  { c1CallRow with
    s := "X20251202P110", strike := some (110 * fxOne),
    optionType := some .put, expiration := some 20251202 }

/-- Environment whose option chain holds exactly the expiries 20251104
and 20251202, with spot price 100. -/
def c1Env : ChainEnv :=
  { spot := .ok (100 * fxOne), rows := [c1CallRow, c1PutRow],
    chainFail := none, today := 20250101 }

/-- Asking for expiry 20991231 against `c1Env`. -/
def c1Result : ChainResult := processOptionChain c1Env (.specific 20991231) 5

/-- A put option row at strike 110 with the same expiry 20251104 as
`c1CallRow` and delta 0.00004. -/
def c8PutRow : RawOpt :=
  { c1CallRow with
    s := "X20251104P110", strike := some (110 * fxOne),
    optionType := some .put }

/-- Environment with one call and one put leg in the single expiry
20251104, both with delta 0.00004, spot price 100. -/
def c8Env : ChainEnv :=
  { spot := .ok (100 * fxOne), rows := [c1CallRow, c8PutRow],
    chainFail := none, today := 20250101 }

/-- Environment for the option-chain witnesses of the `top_n`
handling. -/
def c10Env : ChainEnv :=
  { spot := .ok (100 * fxOne), rows := [c1CallRow, c8PutRow],
    chainFail := none, today := 20250101 }

/-- One OHLC candle used by the historical-fetch examples. -/
def wCandle : OhlcEntry :=
  { timestamp := 100, opn := 1, high := 2, low := 0, close := 1,
    volume := 5, idx := 0 }

/-- A streamer response holding one candle and no indicator data. -/
def wStreamResp : StreamResp :=
  { ohlc := .val [wCandle], indicator := some [], errors := [] }

/-- Fetch environment with no `TRADINGVIEW_COOKIE` configured but a
healthy token provider and data source. -/
def c2EnvNoCookie : FetchEnv :=
  { cookie := none, tokenResult := .ok "tok",
    stream := fun _ _ _ => .ok wStreamResp, render := fun t => toString t }

/-- Fetch environment with a cookie configured. -/
def c2EnvCookie : FetchEnv :=
  { cookie := some "sessionid=a", tokenResult := .ok "tok",
    stream := fun _ _ _ => .ok wStreamResp, render := fun t => toString t }

/-- Fetch environment for the batching witness. -/
def c5Env : FetchEnv :=
  { cookie := some "sessionid=a", tokenResult := .ok "tok",
    stream := fun _ _ _ => .ok wStreamResp, render := fun t => toString t }

/-- Fetch environment for the unrecognized-indicator witness. -/
def c7Env : FetchEnv :=
  { cookie := some "sessionid=a", tokenResult := .ok "tok",
    stream := fun _ _ _ => .ok wStreamResp, render := fun t => toString t }

/-- Batch results where batch 0 completed with an empty OHLC list
while batch 1 holds an OHLC row. -/
def c6Results : List (ℕ × StreamResp) :=
  [(0, { ohlc := .val [], indicator := none, errors := [] }),
   (1, { ohlc := .val [wCandle], indicator := none, errors := [] })]

/-- The same two batch results arriving in the opposite order. -/
def c6ResultsRev : List (ℕ × StreamResp) :=
  [(1, { ohlc := .val [wCandle], indicator := none, errors := [] }),
   (0, { ohlc := .val [], indicator := none, errors := [] })]

/-- Batch results where batch 0 returned a `null` OHLC entry and
batch 1 holds an OHLC row; the combination falls through to batch 1. -/
def c6OkResults : List (ℕ × StreamResp) :=
  [(0, { ohlc := .null, indicator := none, errors := [] }),
   (1, { ohlc := .val [wCandle], indicator := none, errors := [] })]

/-- The same two completed batch results in the opposite arrival
order. -/
def c6OkResultsRev : List (ℕ × StreamResp) :=
  [(1, { ohlc := .val [wCandle], indicator := none, errors := [] }),
   (0, { ohlc := .null, indicator := none, errors := [] })]

/-- Merge input with two candles and an RSI series that covers only
the first timestamp. -/
def c4Data : MergeData :=
  { ohlc := [wCandle, { wCandle with timestamp := 160, idx := 1 }],
    indicator := [("STD;RSI", [{ timestamp := some 100, fields := [("2", 77)] }])] }

/-- Strike entries 25700, 25800, 25900, 26000 of one expiry group (the
concrete scenario of the specification, spot 25877.85). -/
def c3Strikes : List (Fx × StrikeGroup) :=
  [25700, 25800, 25900, 26000].map (fun (k : Int) =>
    (k * fxOne, { strike := k * fxOne, call := none, put := none,
                  distanceFromSpot := pyAbs (k * fxOne - 2587785000000) }))

/- ----------------------------------------------------------------
   Helper lemmas
   ---------------------------------------------------------------- -/

theorem str_ne_of_get_ne (a b x y : String) (i : ℕ) (c c' : Char)
    (h1 : a.data[i]? = some c) (h2 : b.data[i]? = some c') (hc : c ≠ c') :
    a ++ x ≠ b ++ y := by
  intro he
  have hd : (a ++ x).data = (b ++ y).data := congrArg String.data he
  rw [String.data_append, String.data_append] at hd
  have hia : i < a.data.length := by
    rcases List.getElem?_eq_some_iff.mp h1 with ⟨h, _⟩
    exact h
  have hib : i < b.data.length := by
    rcases List.getElem?_eq_some_iff.mp h2 with ⟨h, _⟩
    exact h
  have e1 : (a.data ++ x.data)[i]? = some c := by
    rw [List.getElem?_append_left hia]; exact h1
  have e2 : (b.data ++ y.data)[i]? = some c' := by
    rw [List.getElem?_append_left hib]; exact h2
  rw [hd] at e1
  rw [e1] at e2
  exact hc (Option.some.inj e2)

theorem str_ne_of_get_ne1 (a x b : String) (i : ℕ) (c c' : Char)
    (h1 : a.data[i]? = some c) (h2 : b.data[i]? = some c') (hc : c ≠ c') :
    a ++ x ≠ b := by
  intro he
  have hd : (a ++ x).data = b.data := congrArg String.data he
  rw [String.data_append] at hd
  have hia : i < a.data.length := by
    rcases List.getElem?_eq_some_iff.mp h1 with ⟨h, _⟩
    exact h
  have e1 : (a.data ++ x.data)[i]? = some c := by
    rw [List.getElem?_append_left hia]; exact h1
  rw [hd] at e1
  rw [e1] at h2
  exact hc (Option.some.inj h2)

theorem c10_top_n_boundary_handling (env : ChainEnv) (earg : ExpiryArg) (t : Int) :
    (t < 0 → processOptionChain env earg t = chainFailure (invalidTopNMsg t)) ∧
    processOptionChain env earg 0 = processOptionChain env earg 1 ∧
    (0 < t → (processOptionChain env earg t).message ≠ some (invalidTopNMsg t)) := by
  refine ⟨fun h => by simp [processOptionChain, h], rfl, fun h => ?_⟩
  have hn : ¬ (t < 0) := by omega
  have hz : ¬ (t = 0) := by omega
  unfold processOptionChain
  rw [if_neg hn, if_neg hz]
  repeat' split
  all_goals simp only [chainFailure, invalidTopNMsg, String.append_assoc, Ne, Option.some.injEq]
  all_goals repeat' split
  all_goals try simp only [chainFailure, invalidTopNMsg, String.append_assoc, Ne, Option.some.injEq]
  all_goals try simp only [not_false_eq_true, reduceCtorEq]
  all_goals try contradiction
  any_goals exact str_ne_of_get_ne "Failed to fetch spot price: " "Invalid top_n value: " _ _ 0 'F' 'I' (by decide) (by decide) (by decide)
  any_goals exact str_ne_of_get_ne "Failed to fetch option chain: " "Invalid top_n value: " _ _ 0 'F' 'I' (by decide) (by decide) (by decide)
  any_goals exact str_ne_of_get_ne "Invalid expiry_date format: " "Invalid top_n value: " _ _ 8 'e' 't' (by decide) (by decide) (by decide)
  any_goals exact Ne.symm (str_ne_of_get_ne1 "Invalid top_n value: " _ "No option data available for the specified parameters" 0 'I' 'N' (by decide) (by decide) (by decide))
  all_goals
    rename_i e heq
    unfold computeAnalytics at heq
    simp only [] at heq
    split at heq
  all_goals cases heq
  all_goals exact Ne.symm (str_ne_of_get_ne1 "Invalid top_n value: " _ "Failed to process option chain: TypeError" 0 'I' 'F' (by decide) (by decide) (by decide))


/-- C9: merge_ohlc_with_indicators is a pure function of its input:
running it twice on the same (candles, indicator-series) store yields
identical MergedRow sequences, and the store it hands back after a
call is the store it received, so neither call mutates the input
candle list, the indicator-series mapping, or their elements. -/
theorem c9_merge_pure_idempotent (render : Int → String) (d : MergeData) :
    (mergeTracked render d).2 = d ∧
    (mergeTracked render ((mergeTracked render d).2)).1 = (mergeTracked render d).1 :=
  ⟨rfl, rfl⟩

/-- C1: evaluation at the failing input.  Requesting expiry 20991231
when the chain holds exactly the expiries 20251104 and 20251202 gives
`success=False` with the fixed message `No option data available for
the specified parameters`: no `available_expiries` key is attached and
the message does not contain `not found`, although the repository
tests (tests/stdio/test_fetch_option_chain.py, lines 102-116) require
both. -/
theorem c1_requested_expiry_not_in_chain_eval :
    c1Result = chainFailure "No option data available for the specified parameters" ∧
    c1Result.availableExpiries = none ∧
    ¬ ("not found".data <:+: "No option data available for the specified parameters".data) := by
  refine ⟨by decide, by decide, by decide⟩

/-- C2, counterexample: with no TRADINGVIEW_COOKIE configured, a fully
valid zero-indicator request does not perform any candle fetch at all
(the network trace is empty) and fails with the account-connection
message, contradicting the claim that no cookie configuration is
needed for a candles-only fetch. -/
theorem c2_counterexample_cookie_required :
    fetchHistoricalData c2EnvNoCookie "NSE" "NIFTY" "1m" 10 [] =
      (.ok (otherErrorResult [] notConnectedMsg), []) := by
  decide

/-- C8, counterexample: a successful analysis over one call leg and
one put leg, each with delta 0.00004 (4000 units of 10^-8), reports
totalCallDelta = totalPutDelta = 0 but netDelta = 0.0001 (10000 units),
so netDelta differs from the sum of the reported delta totals. -/
theorem c8_counterexample_net_delta_rounding :
    (processOptionChain c8Env .pyNone 5).success = true ∧
    (processOptionChain c8Env .pyNone 5).analytics =
      some { atmStrike := 9000000000, totalCallDelta := 0, totalPutDelta := 0,
             netDelta := 10000, totalStrikes := 2 } ∧
    (10000 : Int) ≠ 0 + 0 := by
  refine ⟨by decide, by decide, by decide⟩

/-- C6, counterexample: when the completed batch results are batch 0
with an empty OHLC list and batch 1 with an OHLC row, the combination
raises `Failed to fetch OHLC data from TradingView across batches`
instead of taking the backbone from batch 1, the smallest index that
actually has OHLC data. -/
theorem c6_counterexample_empty_first_backbone :
    combineBatches c6Results =
      Except.error "Failed to fetch OHLC data from TradingView across batches." := by
  decide

/-- C10, witness: the negative, zero and positive `top_n` behaviours
at concrete inputs. -/
theorem c10_top_n_boundary_handling_witness :
    processOptionChain c10Env .pyNone (-1) = chainFailure (invalidTopNMsg (-1)) ∧
    processOptionChain c10Env .pyNone 0 = processOptionChain c10Env .pyNone 1 ∧
    (processOptionChain c10Env .pyNone 25).message ≠ some (invalidTopNMsg 25) :=
  ⟨(c10_top_n_boundary_handling c10Env .pyNone (-1)).1 (by decide),
   (c10_top_n_boundary_handling c10Env .pyNone 0).2.1,
   (c10_top_n_boundary_handling c10Env .pyNone 25).2.2 (by decide)⟩

theorem chunk2_length {α : Type} : ∀ (l : List α), (chunk2 l).length = (l.length + 1) / 2
  | [] => by simp [chunk2]
  | [_] => by simp [chunk2]
  | _ :: _ :: rest => by
    simp only [chunk2, List.length_cons]
    rw [chunk2_length rest]
    omega

theorem chunk2_mem_len {α : Type} : ∀ (l : List α), ∀ b ∈ chunk2 l, b.length ≤ 2
  | [] => by simp [chunk2]
  | [_] => by intro b hb; simp [chunk2] at hb; simp [hb]
  | x :: y :: rest => by
    intro b hb
    simp only [chunk2, List.mem_cons] at hb
    rcases hb with rfl | hb
    · simp
    · exact chunk2_mem_len rest b hb

theorem validateIndicators_ids_versions_length (inds : List String) :
    (validateIndicators inds).1.length = (validateIndicators inds).2.1.length := by
  unfold validateIndicators
  simp only []
  suffices h : ∀ (l : List String) (acc : List String × List String × List String),
      acc.1.length = acc.2.1.length →
      (l.foldl (fun acc name =>
        match assocLookup INDICATOR_MAPPING (pyUpper name) with
        | some (indId, indVersion) => (acc.1 ++ [indId], acc.2.1 ++ [indVersion], acc.2.2)
        | none => (acc.1, acc.2.1, acc.2.2 ++ [notRecognizedMsg name])) acc).1.length =
      (l.foldl (fun acc name =>
        match assocLookup INDICATOR_MAPPING (pyUpper name) with
        | some (indId, indVersion) => (acc.1 ++ [indId], acc.2.1 ++ [indVersion], acc.2.2)
        | none => (acc.1, acc.2.1, acc.2.2 ++ [notRecognizedMsg name])) acc).2.1.length by
    exact h inds ([], [], []) rfl
  intro l
  induction l with
  | nil => intro acc h; simpa using h
  | cons x xs ih =>
    intro acc h
    simp only [List.foldl_cons]
    cases hx : assocLookup INDICATOR_MAPPING (pyUpper x) with
    | none => exact ih _ (by simpa using h)
    | some p => exact ih _ (by simp [h])

theorem runBatches_streams (env : FetchEnv) (numb : Int) (tok : String)
    (htok : env.tokenResult = .ok tok) :
    ∀ (bvs : List (List String × List String)) (idx : ℕ),
      ((runBatches env numb idx bvs).1.filter isStreamCall) =
        (bvs.enumFrom idx).map (fun ib => NetCall.stream (numb + (ib.1 : Int)) ib.2.1 ib.2.2)
  | [], idx => by simp [runBatches]
  | bv :: rest, idx => by
    simp only [runBatches, List.enumFrom, List.map_cons, List.filter_append]
    rw [runBatches_streams env numb tok htok rest (idx + 1)]
    unfold runBatch
    rw [htok]
    cases env.stream (numb + (idx : Int)) bv.1 bv.2 <;> simp [isStreamCall]

theorem zip_getElem? {α β : Type} :
    ∀ (l : List α) (l' : List β) (i : ℕ) (p : α × β),
      (l.zip l')[i]? = some p → l[i]? = some p.1 ∧ l'[i]? = some p.2
  | [], _, _, _ => by simp
  | _ :: _, [], _, _ => by simp [List.zip]
  | a :: l, b :: l', 0, p => by
    intro h
    simp only [List.zip_cons_cons, List.getElem?_cons_zero, Option.some.injEq] at h
    subst h
    simp
  | a :: l, b :: l', i + 1, p => by
    intro h
    simp only [List.zip_cons_cons, List.getElem?_cons_succ] at h ⊢
    exact zip_getElem? l l' i p h

theorem enumFrom_getElem? {α : Type} :
    ∀ (l : List α) (k i : ℕ), (l.enumFrom k)[i]? = l[i]?.map (fun a => (k + i, a))
  | [], _, _ => by simp
  | a :: l, k, 0 => by simp [List.enumFrom]
  | a :: l, k, i + 1 => by
    simp only [List.enumFrom, List.getElem?_cons_succ]
    rw [enumFrom_getElem? l (k + 1) i]
    cases l[i]? <;> simp
    omega

theorem infix_append_left {α : Type} {u w : List α} (v : List α) (h : u <:+: w) :
    u <:+: v ++ w := by
  rcases h with ⟨s, t, rfl⟩
  exact ⟨v ++ s, t, by simp⟩

theorem infix_append_right {α : Type} {u v : List α} (w : List α) (h : u <:+: v) :
    u <:+: v ++ w := by
  rcases h with ⟨s, t, rfl⟩
  exact ⟨s, t ++ w, by simp⟩

theorem strInfix_append_left (u v w : String) (h : u.data <:+: w.data) :
    u.data <:+: (v ++ w).data := by
  rw [String.data_append]; exact infix_append_left _ h

theorem strInfix_append_right (u v w : String) (h : u.data <:+: v.data) :
    u.data <:+: (v ++ w).data := by
  rw [String.data_append]; exact infix_append_right _ h

theorem mem_joinSep (sep : String) : ∀ (l : List String) (e : String), e ∈ l →
    e.data <:+: (joinSep sep l).data
  | [], e => by simp
  | [x], e => by
    intro h
    simp only [List.mem_singleton] at h
    subst h
    simp [joinSep]
  | x :: y :: rest, e => by
    intro h
    rcases List.mem_cons.mp h with rfl | h2
    · show e.data <:+: ((e ++ sep) ++ joinSep sep (y :: rest)).data
      apply strInfix_append_right
      apply strInfix_append_right
      exact List.infix_refl _
    · show e.data <:+: ((x ++ sep) ++ joinSep sep (y :: rest)).data
      apply strInfix_append_left
      exact mem_joinSep sep (y :: rest) e h2

theorem validateIndicators_error_mem (inds : List String) (name : String)
    (hmem : name ∈ inds) (hno : assocLookup INDICATOR_MAPPING (pyUpper name) = none) :
    notRecognizedMsg name ∈ (validateIndicators inds).2.2.1 := by
  unfold validateIndicators
  simp only []
  suffices h : ∀ (l : List String) (acc : List String × List String × List String),
      (name ∈ l ∨ notRecognizedMsg name ∈ acc.2.2) →
      notRecognizedMsg name ∈ (l.foldl (fun acc name =>
        match assocLookup INDICATOR_MAPPING (pyUpper name) with
        | some (indId, indVersion) => (acc.1 ++ [indId], acc.2.1 ++ [indVersion], acc.2.2)
        | none => (acc.1, acc.2.1, acc.2.2 ++ [notRecognizedMsg name])) acc).2.2 by
    exact h inds ([], [], []) (Or.inl hmem)
  intro l
  induction l with
  | nil =>
    intro acc h
    simp only [List.foldl_nil]
    rcases h with h | h
    · cases h
    · exact h
  | cons x xs ih =>
    intro acc h
    simp only [List.foldl_cons]
    rcases h with h | h
    · rcases List.mem_cons.mp h with rfl | h2
      · rw [hno]
        exact ih _ (Or.inr (by simp))
      · cases hx : assocLookup INDICATOR_MAPPING (pyUpper x) with
        | none => exact ih _ (Or.inl h2)
        | some p => exact ih _ (Or.inl h2)
    · cases hx : assocLookup INDICATOR_MAPPING (pyUpper x) with
      | none => exact ih _ (Or.inr (by simp [h]))
      | some p => exact ih _ (Or.inr (by simpa using h))

/-- C7: for every request containing an indicator name that the
catalog does not recognize (after upper-casing), and otherwise valid
parameters, fetch_historical_data returns success=False with a message
containing `not recognized` and naming the recognized set
`RSI, MACD, CCI, BB`, and the network trace is empty: no token
acquisition and no candle or indicator fetch happens. -/
theorem c7_unrecognized_indicator_aborts (env : FetchEnv) (exch sym tf : String) (numb : Int)
    (inds : List String) (name : String)
    (hex : pyUpper exch ∈ VALID_EXCHANGES) (hsym : ¬ (pyStrip sym = ""))
    (htf : tf ∈ VALID_TIMEFRAMES) (hlo : ¬ (numb < 1 ∨ numb > 5000))
    (hmem : name ∈ inds)
    (hno : assocLookup INDICATOR_MAPPING (pyUpper name) = none) :
    ∃ r, fetchHistoricalData env exch sym tf numb inds = (.ok r, []) ∧
      r.success = false ∧
      ∃ m, r.message = some m ∧
        "not recognized".data <:+: m.data ∧
        "RSI, MACD, CCI, BB".data <:+: m.data := by
  have herr := validateIndicators_error_mem inds name hmem hno
  have hne : ¬ ((validateIndicators inds).2.2.1.isEmpty = true) := by
    cases he : (validateIndicators inds).2.2.1 with
    | nil => rw [he] at herr; cases herr
    | cons a l => simp [he]
  unfold fetchHistoricalData
  rw [if_neg (by simpa using hex), if_neg hsym, if_neg (by simpa using htf), if_neg hlo]
  simp only []
  rw [if_neg hne]
  refine ⟨_, rfl, rfl, _, rfl, ?_, ?_⟩
  · apply strInfix_append_left
    refine List.IsInfix.trans ?_ (mem_joinSep "; " _ _ herr)
    unfold notRecognizedMsg
    apply strInfix_append_right
    apply strInfix_append_left
    decide
  · apply strInfix_append_left
    refine List.IsInfix.trans ?_ (mem_joinSep "; " _ _ herr)
    unfold notRecognizedMsg
    apply strInfix_append_left
    have hj : joinSep ", " VALID_INDICATORS = "RSI, MACD, CCI, BB" := by decide
    rw [hj]

/-- C7, witness: the unrecognized name FOO aborts a request against a
healthy environment without any network call. -/
theorem c7_unrecognized_indicator_aborts_witness :
    ∃ r, fetchHistoricalData c7Env "NSE" "NIFTY" "1m" 10 ["FOO"] = (.ok r, []) ∧
      r.success = false ∧
      ∃ m, r.message = some m ∧
        "not recognized".data <:+: m.data ∧
        "RSI, MACD, CCI, BB".data <:+: m.data :=
  c7_unrecognized_indicator_aborts c7Env "NSE" "NIFTY" "1m" 10 ["FOO"] "FOO"
    (by decide) (by decide) (by decide) (by decide) (by decide) (by decide)

/-- C2 (amended): a zero-indicator fetch still requires the
TRADINGVIEW_COOKIE configuration and a session token.  With no cookie
the request fails with the account-connection message and performs no
fetch; with a cookie and a working token provider the trace is exactly
one token acquisition followed by the single candles-only stream
fetch. -/
theorem c2_zero_indicator_cookie_gate (env : FetchEnv) (exch sym tf : String) (numb : Int)
    (inds : List String)
    (hex : pyUpper exch ∈ VALID_EXCHANGES) (hsym : ¬ (pyStrip sym = ""))
    (htf : tf ∈ VALID_TIMEFRAMES) (hlo : ¬ (numb < 1 ∨ numb > 5000))
    (hids : (validateIndicators inds).1 = [])
    (herr : (validateIndicators inds).2.2.1 = []) :
    (env.cookie = none →
      fetchHistoricalData env exch sym tf numb inds =
        (.ok (otherErrorResult [] notConnectedMsg), [])) ∧
    (∀ ck tok, env.cookie = some ck → env.tokenResult = .ok tok →
      (fetchHistoricalData env exch sym tf numb inds).2 =
        [NetCall.token, NetCall.stream numb [] []]) := by
  constructor
  · intro hc
    unfold fetchHistoricalData
    rw [if_neg (by simpa using hex), if_neg hsym, if_neg (by simpa using htf), if_neg hlo]
    simp only []
    rw [herr]
    simp only [List.isEmpty_nil, reduceIte]
    unfold fetchBody
    rw [hc]
  · intro ck tok hck htok
    unfold fetchHistoricalData
    rw [if_neg (by simpa using hex), if_neg hsym, if_neg (by simpa using htf), if_neg hlo]
    simp only []
    rw [herr]
    simp only [List.isEmpty_nil, reduceIte]
    unfold fetchBody
    rw [hck, htok, hids]
    simp only [List.isEmpty_nil, reduceIte]

/-- C2, witness: the cookie gate and the single authenticated
candles-only fetch at concrete inputs. -/
theorem c2_zero_indicator_cookie_gate_witness :
    fetchHistoricalData c2EnvNoCookie "NSE" "NIFTY" "1m" 10 [] =
      (.ok (otherErrorResult [] notConnectedMsg), []) ∧
    (fetchHistoricalData c2EnvCookie "NSE" "NIFTY" "1m" 10 []).2 =
      [NetCall.token, NetCall.stream 10 [] []] :=
  ⟨(c2_zero_indicator_cookie_gate c2EnvNoCookie "NSE" "NIFTY" "1m" 10 []
      (by decide) (by decide) (by decide) (by decide) (by decide) (by decide)).1 rfl,
   (c2_zero_indicator_cookie_gate c2EnvCookie "NSE" "NIFTY" "1m" 10 []
      (by decide) (by decide) (by decide) (by decide) (by decide) (by decide)).2
     "sessionid=a" "tok" rfl rfl⟩

theorem lookup_perm {β : Type} {l₁ l₂ : List (ℕ × β)} (h : l₁.Perm l₂)
    (nd : (l₁.map Prod.fst).Nodup) (k : ℕ) : l₁.lookup k = l₂.lookup k := by
  induction h with
  | nil => rfl
  | cons x h ih =>
    rename_i t₁ t₂
    simp only [List.map_cons, List.nodup_cons] at nd
    simp only [List.lookup]
    cases hk : k == x.1 with
    | true => rfl
    | false => exact ih nd.2
  | swap x y l =>
    simp only [List.map_cons, List.nodup_cons, List.mem_cons] at nd
    have hxy : ¬ (x.1 = y.1) := fun he => nd.1 (Or.inl he.symm)
    simp only [List.lookup]
    cases hky : k == y.1 with
    | true =>
      cases hkx : k == x.1 with
      | true =>
        exact absurd ((beq_iff_eq.mp hkx).symm.trans (beq_iff_eq.mp hky)) hxy
      | false => rfl
    | false =>
      cases hkx : k == x.1 with
      | true => rfl
      | false => rfl
  | trans h₁ h₂ ih₁ ih₂ =>
    have nd₂ := (h₁.map Prod.fst).nodup nd
    exact (ih₁ nd).trans (ih₂ nd₂)

theorem sortedKeys_perm_eq {β : Type} {l₁ l₂ : List (ℕ × β)} (h : l₁.Perm l₂) :
    List.insertionSort (fun a b : ℕ => a ≤ b) (l₁.map Prod.fst) =
    List.insertionSort (fun a b : ℕ => a ≤ b) (l₂.map Prod.fst) := by
  exact List.eq_of_perm_of_sorted
    ((List.perm_insertionSort _ _).trans ((h.map Prod.fst).trans (List.perm_insertionSort _ _).symm))
    (List.sorted_insertionSort _ _) (List.sorted_insertionSort _ _)

theorem foldl_congr_fun {γ : Type} :
    ∀ (ks : List ℕ) (st : γ) (f g : γ → ℕ → γ),
      (∀ st k, k ∈ ks → f st k = g st k) → ks.foldl f st = ks.foldl g st
  | [], st, f, g => fun _ => rfl
  | k :: ks, st, f, g => fun h => by
    simp only [List.foldl_cons]
    rw [h st k (by simp)]
    exact foldl_congr_fun ks _ f g (fun st k hk => h st k (by simp [hk]))

theorem combineFold_ohlc (results : List (ℕ × StreamResp)) :
    ∀ (ks : List ℕ) (st : Option (List OhlcEntry) × List (String × List IndPoint) × List String),
      (ks.foldl (fun st k =>
        match results.lookup k with
        | some resp => combineStep st resp
        | none => st) st).1 =
      match st.1 with
      | some l => some l
      | none => ks.findSome? (fun k => (results.lookup k).bind (fun r => resolveOhlcField r.ohlc))
  | [], st => by cases h : st.1 <;> simp [h]
  | k :: ks, st => by
    simp only [List.foldl_cons, List.findSome?_cons]
    rw [combineFold_ohlc results ks]
    cases hl : results.lookup k with
    | none =>
      cases h : st.1 <;> simp [h]
    | some resp =>
      simp only [combineStep]
      cases h : st.1 with
      | some l => simp [h]
      | none =>
        simp only [h, Option.some_bind]
        cases hr : resolveOhlcField resp.ohlc <;> simp [hr]

theorem computeAnalytics_ok (spot : Fx) (flat : List FlatOpt)
    (ar : Analytics × Option Int) (h : computeAnalytics spot flat = .ok ar) :
    ar.1.totalCallDelta =
      round4 (sumDelta (flat.filter
        (fun o => strContains o.info.symbol (strOfOptInt ar.2))) .call) ∧
    ar.1.totalPutDelta =
      round4 (sumDelta (flat.filter
        (fun o => strContains o.info.symbol (strOfOptInt ar.2))) .put) ∧
    ar.1.netDelta =
      round4 (sumDelta (flat.filter
        (fun o => strContains o.info.symbol (strOfOptInt ar.2))) .call +
        sumDelta (flat.filter
        (fun o => strContains o.info.symbol (strOfOptInt ar.2))) .put) := by
  unfold computeAnalytics at h
  simp only [] at h
  split at h
  · cases h
  · obtain rfl := (Except.ok.inj h)
    exact ⟨rfl, rfl, rfl⟩

theorem c8_spine (env : ChainEnv) (spot : Fx) (F : Option Int)
    (g : List RawOpt → List FlatOpt × Option Int) (w : List RawOpt → List String)
    (r : ChainResult) (a : Analytics)
    (heq : (match fetchOptionChainData env F with
            | .error m => chainFailure ("Failed to fetch option chain: " ++ m)
            | .ok rows =>
              if rows.isEmpty = true then
                chainFailure "No option data available for the specified parameters"
              else
                if (g rows).1.isEmpty = true then
                  { success := true, message := none, spotPrice := some spot,
                    latestExpiry := (g rows).2, analytics := none, data := [],
                    warnings := w rows, availableExpiries := none }
                else
                  match computeAnalytics spot (g rows).1 with
                  | .error e => { chainFailure e with data := [] }
                  | .ok ar =>
                    { success := true, message := none, spotPrice := some spot,
                      latestExpiry := ar.2, analytics := some ar.1, data := (g rows).1,
                      warnings := w rows, availableExpiries := none }) = r)
    (ha : r.analytics = some a) :
    a.totalCallDelta =
      round4 (sumDelta (r.data.filter
        (fun o => strContains o.info.symbol (strOfOptInt r.latestExpiry))) .call) ∧
    a.totalPutDelta =
      round4 (sumDelta (r.data.filter
        (fun o => strContains o.info.symbol (strOfOptInt r.latestExpiry))) .put) ∧
    a.netDelta =
      round4 (sumDelta (r.data.filter
        (fun o => strContains o.info.symbol (strOfOptInt r.latestExpiry))) .call +
        sumDelta (r.data.filter
        (fun o => strContains o.info.symbol (strOfOptInt r.latestExpiry))) .put) := by
  cases hf : fetchOptionChainData env F with
  | error m =>
    rw [hf] at heq
    simp only [] at heq
    subst heq
    cases ha
  | ok rows =>
    rw [hf] at heq
    simp only [] at heq
    by_cases hre : rows.isEmpty = true
    · rw [if_pos hre] at heq
      subst heq
      cases ha
    · rw [if_neg hre] at heq
      by_cases hfe : (g rows).1.isEmpty = true
      · rw [if_pos hfe] at heq
        subst heq
        cases ha
      · rw [if_neg hfe] at heq
        cases hca : computeAnalytics spot (g rows).1 with
        | error e =>
          rw [hca] at heq
          simp only [] at heq
          subst heq
          cases ha
        | ok ar =>
          rw [hca] at heq
          simp only [] at heq
          subst heq
          simp only [Option.some.injEq] at ha
          subst ha
          exact computeAnalytics_ok spot (g rows).1 ar hca


/-- C8 (amended): for every analysis that returns analytics, the
reported netDelta is the 4-decimal (half-even) rounding of the exact
sum of the call-leg deltas and put-leg deltas of the selected
latest-expiry legs, and the reported call/put totals are the roundings
of the two addends taken separately.  Because rounding is applied
before and not after the addition, netDelta may differ from
totalCallDelta + totalPutDelta (`c8_counterexample_net_delta_rounding`),
so the unamended exact identity fails. -/
theorem c8_net_delta_is_rounded_sum (env : ChainEnv) (earg : ExpiryArg) (topN : Int) (r : ChainResult)
    (heq : processOptionChain env earg topN = r) (a : Analytics)
    (ha : r.analytics = some a) :
    a.totalCallDelta =
      round4 (sumDelta (r.data.filter
        (fun o => strContains o.info.symbol (strOfOptInt r.latestExpiry))) .call) ∧
    a.totalPutDelta =
      round4 (sumDelta (r.data.filter
        (fun o => strContains o.info.symbol (strOfOptInt r.latestExpiry))) .put) ∧
    a.netDelta =
      round4 (sumDelta (r.data.filter
        (fun o => strContains o.info.symbol (strOfOptInt r.latestExpiry))) .call +
        sumDelta (r.data.filter
        (fun o => strContains o.info.symbol (strOfOptInt r.latestExpiry))) .put) := by
  unfold processOptionChain at heq
  by_cases h0 : topN < 0
  · rw [if_pos h0] at heq
    subst heq
    cases ha
  · rw [if_neg h0] at heq
    simp only [] at heq
    cases hs : env.spot with
    | error m =>
      rw [hs] at heq
      simp only [] at heq
      subst heq
      cases ha
    | ok spot =>
      rw [hs] at heq
      simp only [] at heq
      cases earg with
      | badString s =>
        simp only [] at heq
        subst heq
        cases ha
      | pyNone =>
        simp only [] at heq
        exact c8_spine env spot none
          (fun rows => ((flattenGroups spot (if topN = 0 then 1 else topN) (buildGroups spot rows)).1, none))
          (fun rows => (flattenGroups spot (if topN = 0 then 1 else topN) (buildGroups spot rows)).2)
          r a heq ha
      | latestMode =>
        simp only [] at heq
        exact c8_spine env spot none
          (fun rows => latestFilter env (flattenGroups spot (if topN = 0 then 1 else topN) (buildGroups spot rows)).1)
          (fun rows => (flattenGroups spot (if topN = 0 then 1 else topN) (buildGroups spot rows)).2)
          r a heq ha
      | specific d =>
        simp only [] at heq
        exact c8_spine env spot (some d)
          (fun rows => ((flattenGroups spot (if topN = 0 then 1 else topN) (buildGroups spot rows)).1.filter
            (fun o => strContains o.info.symbol (toString d)), none))
          (fun rows => (flattenGroups spot (if topN = 0 then 1 else topN) (buildGroups spot rows)).2)
          r a heq ha

/-- C8, witness: the rounding identity evaluated on the concrete
two-leg chain of the counterexample. -/
theorem c8_net_delta_is_rounded_sum_witness :
    (10000 : Int) =
      round4 (sumDelta ((processOptionChain c8Env .pyNone 5).data.filter
        (fun o => strContains o.info.symbol
          (strOfOptInt (processOptionChain c8Env .pyNone 5).latestExpiry))) .call +
        sumDelta ((processOptionChain c8Env .pyNone 5).data.filter
        (fun o => strContains o.info.symbol
          (strOfOptInt (processOptionChain c8Env .pyNone 5).latestExpiry))) .put) :=
  (c8_net_delta_is_rounded_sum c8Env .pyNone 5 (processOptionChain c8Env .pyNone 5) rfl
    { atmStrike := 9000000000, totalCallDelta := 0, totalPutDelta := 0,
      netDelta := 10000, totalStrikes := 2 } (by decide)).2.2

theorem pyFindIdx_take_drop {α : Type} (p : α → Bool) :
    ∀ (l : List α) (i : ℕ), pyFindIdx p l = some i →
      l.take i = l.takeWhile (fun a => ! p a) ∧ l.drop i = l.dropWhile (fun a => ! p a)
  | [], i => by intro h; cases h
  | a :: rest, i => by
    intro h
    simp only [pyFindIdx] at h
    by_cases hp : p a
    · rw [if_pos hp] at h
      obtain rfl := Option.some.inj h
      simp [List.takeWhile_cons, List.dropWhile_cons, hp]
    · rw [if_neg hp] at h
      cases hr : pyFindIdx p rest with
      | none => rw [hr] at h; cases h
      | some j =>
        rw [hr] at h
        simp only [Option.map] at h
        obtain rfl := Option.some.inj h
        have ih := pyFindIdx_take_drop p rest j hr
        simp [List.takeWhile_cons, List.dropWhile_cons, hp, ih.1, ih.2]

theorem pyFindIdx_isSome {α : Type} (p : α → Bool) :
    ∀ (l : List α), (∃ x ∈ l, p x) → ∃ i, pyFindIdx p l = some i
  | [] => by simp
  | a :: rest => by
    intro h
    by_cases hp : p a
    · exact ⟨0, by simp [pyFindIdx, hp]⟩
    · obtain ⟨x, hx, hpx⟩ := h
      rcases List.mem_cons.mp hx with rfl | hx2
      · exact absurd hpx hp
      · obtain ⟨j, hj⟩ := pyFindIdx_isSome p rest ⟨x, hx2, hpx⟩
        exact ⟨j + 1, by simp [pyFindIdx, hp, hj]⟩

theorem not_ge_bool (spot : Int) :
    (fun g : StrikeGroup => ! decide (spot ≤ g.strike)) =
    (fun g : StrikeGroup => decide (g.strike < spot)) := by
  funext g
  by_cases h : spot ≤ g.strike
  · simp [h, not_lt.mpr h]
  · simp [h, lt_of_not_ge h]

theorem take_min_length {α : Type} (l : List α) (n : ℕ) :
    l.take (min n l.length) = l.take n := by
  cases (Nat.le_total n l.length) with
  | inl h => rw [min_eq_left h]
  | inr h => rw [min_eq_right h, List.take_length, List.take_of_length_le h]

/-- Strike ordering facts used by the sortedness lemma. -/
instance : IsTrans StrikeGroup (fun a b => a.strike ≤ b.strike) :=
  ⟨fun _ _ _ hab hbc => le_trans hab hbc⟩

instance : IsTotal StrikeGroup (fun a b => a.strike ≤ b.strike) :=
  ⟨fun a b => le_total a.strike b.strike⟩

/-- C3: the ITM/OTM window selection.  For every expiry group whose
sorted strike list has both a strike below the spot and one at or
above it, and every positive requested count (the source uses the
single `top_n` for both the ITM and the OTM side): the selected ITM
strikes are exactly the last `top_n` entries — the largest strikes —
of the ascending pool of strikes strictly below the first strike at or
above the spot (all of them when fewer exist, in which case the
shortfall warning is recorded), and the selected OTM strikes are
exactly the first `top_n` entries of the pool at or above that
boundary (all of them plus a warning when fewer exist). -/
theorem c3_itm_otm_window (spot topN : Int) (expiration : Int)
    (strikes : List (Fx × StrikeGroup)) (htop : 1 ≤ topN)
    (hbelow : ∃ g ∈ strikes.map Prod.snd, g.strike < spot)
    (habove : ∃ g ∈ strikes.map Prod.snd, spot ≤ g.strike) :
    let sorted := List.insertionSort (fun a b : StrikeGroup => a.strike ≤ b.strike)
      (strikes.map Prod.snd)
    let below := sorted.takeWhile (fun g => decide (g.strike < spot))
    let above := sorted.dropWhile (fun g => decide (g.strike < spot))
    let sel := selectWindow spot topN expiration strikes
    sorted.Perm (strikes.map Prod.snd) ∧
    List.Sorted (fun a b : StrikeGroup => a.strike ≤ b.strike) sorted ∧
    sel.1 = below.drop (below.length - topN.toNat) ∧
    (topN ≤ (below.length : Int) → sel.1.length = topN.toNat) ∧
    ((below.length : Int) < topN →
      sel.1 = below ∧ itmShortWarning expiration topN below.length ∈ sel.2.2) ∧
    sel.2.1 = above.take topN.toNat ∧
    ((above.length : Int) < topN →
      sel.2.1 = above ∧ otmShortWarning expiration topN above.length ∈ sel.2.2) := by
  intro sorted below above sel
  have hperm : sorted.Perm (strikes.map Prod.snd) := List.perm_insertionSort _ _
  have hsorted : List.Sorted (fun a b : StrikeGroup => a.strike ≤ b.strike) sorted :=
    List.sorted_insertionSort _ _
  obtain ⟨ga, hga, hgas⟩ := habove
  obtain ⟨i, hi⟩ := pyFindIdx_isSome (fun g => decide (spot ≤ g.strike)) sorted
    ⟨ga, hperm.mem_iff.mpr hga, by simpa using hgas⟩
  have htd := pyFindIdx_take_drop (fun g => decide (spot ≤ g.strike)) sorted i hi
  have htake : sorted.take i = below := by
    rw [htd.1]
    show sorted.takeWhile (fun a => ! decide (spot ≤ a.strike)) = _
    rw [not_ge_bool]
  have hdrop : sorted.drop i = above := by
    rw [htd.2]
    show sorted.dropWhile (fun a => ! decide (spot ≤ a.strike)) = _
    rw [not_ge_bool]
  have hself : sel = selectWindow spot topN expiration strikes := rfl
  rw [selectWindow] at hself
  try simp only [] at hself
  rw [hi] at hself
  try simp only [Option.getD] at hself
  rw [htake, hdrop] at hself
  have hsel1 : sel.1 = below.drop (below.length - topN.toNat) := by
    rw [hself]
    simp only []
    by_cases hbl : below.length = 0
    · have hb0 : below = [] := List.length_eq_zero.mp hbl
      rw [if_neg (by omega)]
      rw [hb0]
      simp
    · rw [if_pos (by omega)]
      have harith : below.length - (topN ⊓ (below.length : Int)).toNat =
          below.length - topN.toNat := by omega
      rw [harith]
  have hsel2 : sel.2.1 = above.take topN.toNat := by
    rw [hself]
    simp only []
    have harith : (topN ⊓ (above.length : Int)).toNat = min topN.toNat above.length := by
      omega
    rw [harith, take_min_length]
  refine ⟨hperm, hsorted, hsel1, ?_, ?_, hsel2, ?_⟩
  · intro h
    rw [hsel1, List.length_drop]
    omega
  · intro h
    constructor
    · rw [hsel1]
      have : below.length - topN.toNat = 0 := by omega
      rw [this, List.drop_zero]
    · rw [hself]
      simp only []
      rw [if_pos (by omega : (below.length : Int) < topN)]
      simp
  · intro h
    constructor
    · rw [hsel2]
      exact List.take_of_length_le (by omega)
    · rw [hself]
      simp only []
      rw [if_pos (by omega : (above.length : Int) < topN)]
      simp

/-- C3, witness: the specification scenario — spot 25877.85, strikes
25700, 25800, 25900, 26000, two strikes per side. -/
theorem c3_itm_otm_window_witness :
    let sorted := List.insertionSort (fun a b : StrikeGroup => a.strike ≤ b.strike)
      (c3Strikes.map Prod.snd)
    let below := sorted.takeWhile (fun g => decide (g.strike < 2587785000000))
    let above := sorted.dropWhile (fun g => decide (g.strike < 2587785000000))
    let sel := selectWindow 2587785000000 2 20251104 c3Strikes
    sorted.Perm (c3Strikes.map Prod.snd) ∧
    List.Sorted (fun a b : StrikeGroup => a.strike ≤ b.strike) sorted ∧
    sel.1 = below.drop (below.length - (2 : Int).toNat) ∧
    ((2 : Int) ≤ (below.length : Int) → sel.1.length = (2 : Int).toNat) ∧
    ((below.length : Int) < 2 →
      sel.1 = below ∧ itmShortWarning 20251104 2 below.length ∈ sel.2.2) ∧
    sel.2.1 = above.take (2 : Int).toNat ∧
    ((above.length : Int) < 2 →
      sel.2.1 = above ∧ otmShortWarning 20251104 2 above.length ∈ sel.2.2) :=
  c3_itm_otm_window 2587785000000 2 20251104 c3Strikes (by decide)
    ⟨{ strike := 25700 * fxOne, call := none, put := none,
       distanceFromSpot := pyAbs (25700 * fxOne - 2587785000000) }, by decide, by decide⟩
    ⟨{ strike := 25900 * fxOne, call := none, put := none,
       distanceFromSpot := pyAbs (25900 * fxOne - 2587785000000) }, by decide, by decide⟩

end TV

namespace TV

theorem combineFold_ohlc_none (results : List (ℕ × StreamResp)) (ks : List ℕ) :
    (ks.foldl (fun st k =>
      match results.lookup k with
      | some resp => combineStep st resp
      | none => st) ((none : Option (List OhlcEntry)), ([] : List (String × List IndPoint)), ([] : List String))).1 =
    ks.findSome? (fun k => (results.lookup k).bind (fun r => resolveOhlcField r.ohlc)) := by
  rw [combineFold_ohlc]

/-- C6 (amended): the combination of completed batch results is a
function of the payloads alone — any two arrival orders of the same
`(index, response)` pairs (with the distinct indices of the results
dict) combine identically — and the OHLC backbone of a successful
combination is the first batch index, in ascending order, whose
response carries a non-null `ohlc` entry (a missing key counting as an
empty list), and it is non-empty.  The unamended claim fails because a
present-but-empty OHLC list in the smallest index is kept, and the
fetch then fails even when a later batch has OHLC rows
(`c6_counterexample_empty_first_backbone`). -/
theorem c6_backbone_selection_and_determinism (l₁ l₂ : List (ℕ × StreamResp)) (h : l₁.Perm l₂)
    (nd : (l₁.map Prod.fst).Nodup) :
    combineBatches l₁ = combineBatches l₂ ∧
    ∀ c, combineBatches l₁ = .ok c → specBackbone l₁ = some c.ohlc ∧ c.ohlc ≠ [] := by
  constructor
  · unfold combineBatches
    simp only []
    rw [sortedKeys_perm_eq h]
    rw [foldl_congr_fun _ _ _
      (fun st k =>
        match l₂.lookup k with
        | some resp => combineStep st resp
        | none => st)
      (fun st k _ => by rw [lookup_perm h nd k])]
  · intro c hc
    unfold combineBatches at hc
    simp only [] at hc
    rw [combineFold_ohlc_none] at hc
    cases hb : (List.insertionSort (fun a b : ℕ => a ≤ b) (l₁.map Prod.fst)).findSome?
        (fun k => (l₁.lookup k).bind (fun r => resolveOhlcField r.ohlc)) with
    | none =>
      rw [hb] at hc
      simp only [] at hc
      cases hc
    | some lst =>
      rw [hb] at hc
      simp only [] at hc
      by_cases he : lst.isEmpty
      · rw [if_pos he] at hc; cases hc
      · rw [if_neg he] at hc
        obtain rfl := (Except.ok.inj hc)
        constructor
        · unfold specBackbone
          exact hb
        · simpa using he

/-- C6, witness: a null-OHLC batch 0 and a populated batch 1, in both
arrival orders, combine identically and take the backbone from
batch 1. -/
theorem c6_backbone_selection_and_determinism_witness :
    combineBatches c6OkResults = combineBatches c6OkResultsRev ∧
    specBackbone c6OkResults = some (CombinedData.mk [wCandle] [] []).ohlc ∧
    (CombinedData.mk [wCandle] [] []).ohlc ≠ [] :=
  ⟨(c6_backbone_selection_and_determinism c6OkResults c6OkResultsRev
      (by decide) (by decide)).1,
   ((c6_backbone_selection_and_determinism c6OkResults c6OkResultsRev
      (by decide) (by decide)).2 ⟨[wCandle], [], []⟩ (by decide)).1,
   ((c6_backbone_selection_and_determinism c6OkResults c6OkResultsRev
      (by decide) (by decide)).2 ⟨[wCandle], [], []⟩ (by decide)).2⟩

end TV

namespace TV

theorem plannedCalls_getElem? (numb : Int) (ids versions : List String) (i : ℕ)
    (c : NetCall) (h : (plannedCalls numb ids versions)[i]? = some c) :
    ∃ bids bvers, c = NetCall.stream (numb + (i : Int)) bids bvers ∧ bids ∈ chunk2 ids := by
  unfold plannedCalls at h
  rw [List.getElem?_map] at h
  cases hz : (((chunk2 ids).zip (chunk2 versions)).enum)[i]? with
  | none => rw [hz] at h; cases h
  | some ib =>
    rw [hz] at h
    simp at h
    have hz' := hz
    unfold List.enum at hz'
    rw [enumFrom_getElem?] at hz'
    cases hp : ((chunk2 ids).zip (chunk2 versions))[i]? with
    | none => rw [hp] at hz'; cases hz'
    | some p =>
      rw [hp] at hz'
      simp at hz'
      subst hz'
      simp at h
      obtain ⟨h1, _⟩ := zip_getElem? _ _ _ _ hp
      exact ⟨p.1, p.2, h.symm, List.getElem?_mem h1⟩

/-- C5: the batching plan of fetch_historical_data.  For every request
whose indicator names all resolve (no validation errors) to a
non-empty id list, with valid exchange/symbol/timeframe/candle-count
and a configured cookie and working token provider: the stream fetches
performed are exactly one per batch of the plan; the plan has exactly
ceil(n/2) batches for n resolved indicator ids; every id batch has at
most 2 indicators; and the batch at index N fetches numb + N candles. -/
theorem c5_batch_plan (env : FetchEnv) (exch sym tf : String) (numb : Int)
    (inds : List String) (ck tok : String)
    (hex : pyUpper exch ∈ VALID_EXCHANGES) (hsym : ¬ (pyStrip sym = ""))
    (htf : tf ∈ VALID_TIMEFRAMES) (hlo : ¬ (numb < 1 ∨ numb > 5000))
    (herr : (validateIndicators inds).2.2.1 = [])
    (hne : (validateIndicators inds).1 ≠ [])
    (hck : env.cookie = some ck) (htok : env.tokenResult = .ok tok) :
    ((fetchHistoricalData env exch sym tf numb inds).2.filter isStreamCall =
        plannedCalls numb (validateIndicators inds).1 (validateIndicators inds).2.1) ∧
    (plannedCalls numb (validateIndicators inds).1 (validateIndicators inds).2.1).length =
        ((validateIndicators inds).1.length + 1) / 2 ∧
    (∀ b ∈ chunk2 (validateIndicators inds).1, b.length ≤ 2) ∧
    (∀ (i : ℕ) (c : NetCall),
        (plannedCalls numb (validateIndicators inds).1 (validateIndicators inds).2.1)[i]? = some c →
        ∃ bids bvers, c = NetCall.stream (numb + (i : Int)) bids bvers ∧ bids.length ≤ 2) := by
  refine ⟨?_, ?_, fun b hb => chunk2_mem_len _ b hb, ?_⟩
  · unfold fetchHistoricalData
    rw [if_neg (by simpa using hex), if_neg hsym, if_neg (by simpa using htf), if_neg hlo]
    simp only []
    rw [herr]
    simp only [List.isEmpty_nil, reduceIte]
    unfold fetchBody
    rw [hck, htok]
    rw [if_neg (by simpa using hne)]
    rw [List.filter_append, runBatches_streams env numb tok htok]
    simp [isStreamCall, plannedCalls, List.enum]
  · have hlen := validateIndicators_ids_versions_length inds
    unfold plannedCalls
    rw [List.length_map, List.enum_length, List.length_zip, chunk2_length, chunk2_length, hlen]
    omega
  · intro i c hc
    obtain ⟨bids, bvers, hcs, hmem⟩ := plannedCalls_getElem? numb _ _ i c hc
    exact ⟨bids, bvers, hcs, chunk2_mem_len _ bids hmem⟩

/-- C5, witness: five indicator names (with one lower-case alias)
resolve to five ids, are fetched in exactly three stream calls, and
the third batch (index 2) requests 10 + 2 candles for a single id. -/
theorem c5_batch_plan_witness :
    ((fetchHistoricalData c5Env "NSE" "NIFTY" "1m" 10 ["RSI", "MACD", "CCI", "BB", "rsi"]).2.filter isStreamCall =
        plannedCalls 10 (validateIndicators ["RSI", "MACD", "CCI", "BB", "rsi"]).1
          (validateIndicators ["RSI", "MACD", "CCI", "BB", "rsi"]).2.1) ∧
    (plannedCalls 10 (validateIndicators ["RSI", "MACD", "CCI", "BB", "rsi"]).1
        (validateIndicators ["RSI", "MACD", "CCI", "BB", "rsi"]).2.1).length =
      ((validateIndicators ["RSI", "MACD", "CCI", "BB", "rsi"]).1.length + 1) / 2 ∧
    (∀ b ∈ chunk2 (validateIndicators ["RSI", "MACD", "CCI", "BB", "rsi"]).1, b.length ≤ 2) ∧
    (∀ (i : ℕ) (c : NetCall),
        (plannedCalls 10 (validateIndicators ["RSI", "MACD", "CCI", "BB", "rsi"]).1
          (validateIndicators ["RSI", "MACD", "CCI", "BB", "rsi"]).2.1)[i]? = some c →
        ∃ bids bvers, c = NetCall.stream (10 + (i : Int)) bids bvers ∧ bids.length ≤ 2) :=
  c5_batch_plan c5Env "NSE" "NIFTY" "1m" 10 ["RSI", "MACD", "CCI", "BB", "rsi"]
    "sessionid=a" "tok" (by decide) (by decide) (by decide) (by decide)
    (by decide) (by decide) rfl rfl

end TV

namespace TV

theorem catalog_shorts_nodup : (INDICATOR_MAPPING.map Prod.fst).Nodup := by decide

theorem catalog_names_nodup :
    ∀ s ∈ INDICATOR_MAPPING.map Prod.fst, (catalogFieldNames s).Nodup := by decide

theorem catalog_disjoint :
    ∀ s₁ ∈ INDICATOR_MAPPING.map Prod.fst, ∀ s₂ ∈ INDICATOR_MAPPING.map Prod.fst,
      s₁ ≠ s₂ → ∀ n ∈ catalogFieldNames s₁, n ∉ catalogFieldNames s₂ := by decide

theorem avail_shorts_sublist_aux (ind : List (String × List IndPoint)) :
    ∀ (cat : List (String × String × String)),
      ((cat.filterMap (fun entry =>
        (ind.find? (fun p => p.1 == entry.2.1)).map (fun p => (entry.1, p.2)))).map
          Prod.fst).Sublist (cat.map Prod.fst)
  | [] => by simp
  | e :: cat => by
    simp only [List.filterMap_cons]
    cases hf : ind.find? (fun p => p.1 == e.2.1) with
    | none =>
      simp only [Option.map]
      exact (avail_shorts_sublist_aux ind cat).cons _
    | some p =>
      simp only [Option.map]
      exact (avail_shorts_sublist_aux ind cat).cons₂ _

theorem avail_shorts_sublist (ind : List (String × List IndPoint)) :
    ((availIndicators ind).map Prod.fst).Sublist (INDICATOR_MAPPING.map Prod.fst) :=
  avail_shorts_sublist_aux ind INDICATOR_MAPPING

theorem rowExtra_fst (t : Int) (i : ℕ) :
    ∀ (maps : List (String × List IndPoint)), (rowExtra maps t i).1 = rowFields maps t := by
  suffices h : ∀ (maps : List (String × List IndPoint)) (acc : List (String × Fx) × List String),
      (maps.foldl (fun acc sp =>
        match tsLookup sp.2 t with
        | none => (acc.1, acc.2 ++ [missingMsg sp.1 t i])
        | some p =>
          let fm := (assocLookup INDICATOR_FIELD_MAPPING sp.1).getD []
          (acc.1 ++ fm.map (fun kf => (kf.2, ((assocLookup p.fields kf.1).getD 0))), acc.2))
        acc).1 = acc.1 ++ rowFields maps t by
    intro maps
    have := h maps ([], [])
    simpa [rowExtra] using this
  intro maps
  induction maps with
  | nil => intro acc; simp [rowFields]
  | cons m rest ih =>
    intro acc
    simp only [List.foldl_cons]
    cases hm : tsLookup m.2 t with
    | none =>
      rw [ih]
      simp [rowFields, hm]
    | some p =>
      rw [ih]
      simp [rowFields, hm]

theorem lookup_block_some (v : String × String → Fx) :
    ∀ (fm : List (String × String)), (fm.map Prod.snd).Nodup →
      ∀ kf ∈ fm, assocLookup (fm.map (fun kf' => (kf'.2, v kf'))) kf.2 = some (v kf)
  | [] => by simp
  | a :: fm => by
    intro hnd kf hkf
    simp only [List.map_cons, List.nodup_cons] at hnd
    rcases List.mem_cons.mp hkf with rfl | h2
    · simp [assocLookup, List.find?]
    · have hne : ¬ (a.2 == kf.2) = true := by
        intro hb
        exact hnd.1 ((beq_iff_eq.mp hb) ▸ List.mem_map_of_mem Prod.snd h2)
      simp only [assocLookup, List.map_cons, List.find?]
      rw [show ((a.2, v a).1 == kf.2) = false from by simpa using hne]
      exact lookup_block_some v fm hnd.2 kf h2

theorem lookup_block_none (v : String × String → Fx) (k : String) :
    ∀ (fm : List (String × String)), k ∉ fm.map Prod.snd →
      assocLookup (fm.map (fun kf' => (kf'.2, v kf'))) k = none
  | [] => by simp [assocLookup]
  | a :: fm => by
    intro hk
    simp only [List.map_cons, List.mem_cons] at hk
    push_neg at hk
    simp only [assocLookup, List.map_cons, List.find?]
    rw [show ((a.2, v a).1 == k) = false from by simpa using Ne.symm hk.1]
    exact lookup_block_none v k fm hk.2

theorem assocLookup_append {β : Type} (m1 m2 : List (String × β)) (k : String) :
    assocLookup (m1 ++ m2) k =
      match assocLookup m1 k with
      | some v => some v
      | none => assocLookup m2 k := by
  simp only [assocLookup, List.find?_append]
  cases h : m1.find? (fun p => p.1 == k) <;> simp [Option.orElse, h]

theorem rowFields_cons (m : String × List IndPoint) (rest : List (String × List IndPoint))
    (t : Int) :
    rowFields (m :: rest) t =
      (match tsLookup m.2 t with
        | none => []
        | some p => ((assocLookup INDICATOR_FIELD_MAPPING m.1).getD []).map
            (fun kf => (kf.2, (assocLookup p.fields kf.1).getD 0))) ++ rowFields rest t := by
  simp [rowFields]

theorem lookup_rowFields_none (t : Int) (k : String) :
    ∀ (maps : List (String × List IndPoint)),
      ((maps.map Prod.fst).Sublist (INDICATOR_MAPPING.map Prod.fst)) →
      (∀ s ∈ maps.map Prod.fst, k ∉ catalogFieldNames s) →
      assocLookup (rowFields maps t) k = none
  | [] => by intro _ _; simp [rowFields, assocLookup]
  | m :: rest => by
    intro hsub hk
    have hsub' : (rest.map Prod.fst).Sublist (INDICATOR_MAPPING.map Prod.fst) :=
      List.sublist_of_cons_sublist hsub
    rw [rowFields_cons, assocLookup_append]
    have hblock : assocLookup (match tsLookup m.2 t with
        | none => []
        | some p => ((assocLookup INDICATOR_FIELD_MAPPING m.1).getD []).map
            (fun kf => (kf.2, (assocLookup p.fields kf.1).getD 0))) k = none := by
      cases hm : tsLookup m.2 t with
      | none => simp [assocLookup]
      | some p =>
        exact lookup_block_none _ k _ (hk m.1 (by simp))
    rw [hblock]
    exact lookup_rowFields_none t k rest hsub' (fun s hs => hk s (by simp [hs]))

theorem lookup_rowFields (t : Int) :
    ∀ (maps : List (String × List IndPoint)),
      ((maps.map Prod.fst).Sublist (INDICATOR_MAPPING.map Prod.fst)) →
      ∀ sp ∈ maps,
        (∀ p, tsLookup sp.2 t = some p →
          ∀ kf ∈ (assocLookup INDICATOR_FIELD_MAPPING sp.1).getD [],
            assocLookup (rowFields maps t) kf.2 =
              some ((assocLookup p.fields kf.1).getD 0)) ∧
        (tsLookup sp.2 t = none →
          ∀ kf ∈ (assocLookup INDICATOR_FIELD_MAPPING sp.1).getD [],
            assocLookup (rowFields maps t) kf.2 = none)
  | [] => by simp
  | m :: rest => by
    intro hsub sp hsp
    have hsub' : (rest.map Prod.fst).Sublist (INDICATOR_MAPPING.map Prod.fst) :=
      List.sublist_of_cons_sublist hsub
    have hnd : ((m :: rest).map Prod.fst).Nodup := hsub.nodup catalog_shorts_nodup
    simp only [List.map_cons, List.nodup_cons] at hnd
    have hmem_m : m.1 ∈ INDICATOR_MAPPING.map Prod.fst := hsub.subset (by simp)
    have hname : ∀ kf ∈ (assocLookup INDICATOR_FIELD_MAPPING sp.1).getD [],
        kf.2 ∈ catalogFieldNames sp.1 := by
      intro kf hkf
      exact List.mem_map_of_mem Prod.snd hkf
    rcases List.mem_cons.mp hsp with rfl | hsp2
    · constructor
      · intro p hp kf hkf
        rw [rowFields_cons, hp, assocLookup_append]
        rw [lookup_block_some _ _ (catalog_names_nodup sp.1 hmem_m) kf hkf]
      · intro hp kf hkf
        rw [rowFields_cons, hp, assocLookup_append]
        show (match assocLookup [] kf.2 with
          | some v => some v
          | none => assocLookup (rowFields rest t) kf.2) = none
        simp only [assocLookup, List.find?]
        apply lookup_rowFields_none t kf.2 rest hsub'
        intro s hs
        have hne : sp.1 ≠ s := fun he => hnd.1 (he ▸ hs)
        have hmem_s : s ∈ INDICATOR_MAPPING.map Prod.fst := hsub'.subset hs
        exact catalog_disjoint sp.1 hmem_m s hmem_s hne kf.2 (hname kf hkf)
    · have hmem_sp : sp.1 ∈ INDICATOR_MAPPING.map Prod.fst :=
        hsub'.subset (List.mem_map_of_mem Prod.fst hsp2)
      have hne : m.1 ≠ sp.1 := fun he => hnd.1 (he ▸ List.mem_map_of_mem Prod.fst hsp2)
      have hblock : ∀ kf ∈ (assocLookup INDICATOR_FIELD_MAPPING sp.1).getD [],
          assocLookup (match tsLookup m.2 t with
            | none => []
            | some p => ((assocLookup INDICATOR_FIELD_MAPPING m.1).getD []).map
                (fun kf => (kf.2, (assocLookup p.fields kf.1).getD 0))) kf.2 = none := by
        intro kf hkf
        cases hm : tsLookup m.2 t with
        | none => simp [assocLookup]
        | some q =>
          apply lookup_block_none
          exact catalog_disjoint sp.1 hmem_sp m.1 hmem_m (Ne.symm hne) kf.2 (hname kf hkf)
      have ih := lookup_rowFields t rest hsub' sp hsp2
      constructor
      · intro p hp kf hkf
        rw [rowFields_cons, assocLookup_append, hblock kf hkf]
        exact ih.1 p hp kf hkf
      · intro hp kf hkf
        rw [rowFields_cons, assocLookup_append, hblock kf hkf]
        exact ih.2 hp kf hkf

theorem rowsOf_map_comp (f : OhlcEntry → MergedRow) :
    ∀ (l : List OhlcEntry), rowsOf (l.map (fun e => MergedItem.row (f e))) = l.map f
  | [] => rfl
  | a :: l => by
    show f a :: rowsOf (l.map (fun e => MergedItem.row (f e))) = f a :: l.map f
    rw [rowsOf_map_comp f l]

theorem rowsOf_out (es : List String) :
    ∀ (rs : List MergedRow),
      rowsOf (rs.map MergedItem.row ++
        if es.isEmpty then [] else [MergedItem.errs es]) = rs
  | [] => by cases h : es.isEmpty <;> simp [rowsOf]
  | r :: rs => by
    show r :: rowsOf (rs.map MergedItem.row ++
      if es.isEmpty then [] else [MergedItem.errs es]) = r :: rs
    rw [rowsOf_out es rs]

theorem merge_eq_empty_avail (render : Int → String) (d : MergeData)
    (hne : d.ohlc.isEmpty = false)
    (hav : (availIndicators d.indicator).isEmpty = true) :
    mergeOhlcWithIndicators render d =
      .ok (d.ohlc.map (fun e => .row (baseRow render e))) := by
  simp [mergeOhlcWithIndicators, hne, hav]

theorem merge_eq_nonempty_avail (render : Int → String) (d : MergeData)
    (hne : d.ohlc.isEmpty = false)
    (hav : (availIndicators d.indicator).isEmpty = false) :
    mergeOhlcWithIndicators render d =
      .ok ((d.ohlc.enum.map (fun ie =>
          ({ baseRow render ie.2 with
              extra := (rowExtra (availIndicators d.indicator) ie.2.timestamp ie.1).1 }
            : MergedRow))).map .row ++
        (if ((d.ohlc.enum.map (fun ie =>
              (rowExtra (availIndicators d.indicator) ie.2.timestamp ie.1).2)).flatten).isEmpty
          then []
          else [.errs ((d.ohlc.enum.map (fun ie =>
              (rowExtra (availIndicators d.indicator) ie.2.timestamp ie.1).2)).flatten)])) := by
  simp [mergeOhlcWithIndicators, hne, hav]

/-- C4: merging a non-empty candle list with indicator series succeeds
and emits exactly one merged row per input candle, in input order;
the row at each index copies the base fields of the candle at that
index and renders its timestamp; for every attached indicator whose
series holds a point at that exact timestamp, the mapped output
fields are present with the values of that point (default 0 when a
source field key is absent on the matched point); and for every
attached indicator with no point at the timestamp, none of its output
fields appear on the row. -/
theorem c4_merge_timestamp_invariant (render : Int → String) (d : MergeData)
    (hne : d.ohlc ≠ []) :
    ∃ out, mergeOhlcWithIndicators render d = .ok out ∧
      (rowsOf out).length = d.ohlc.length ∧
      ∀ (i : ℕ) (e : OhlcEntry) (r : MergedRow),
        d.ohlc[i]? = some e → (rowsOf out)[i]? = some r →
        rowMatches render d.indicator e r := by
  have hne' : d.ohlc.isEmpty = false := by
    cases hl : d.ohlc with
    | nil => exact absurd hl hne
    | cons a l => rfl
  cases hav : (availIndicators d.indicator).isEmpty with
  | true =>
    have hmem : availIndicators d.indicator = [] := by
      cases hA : availIndicators d.indicator with
      | nil => rfl
      | cons a l => rw [hA] at hav; simp at hav
    refine ⟨_, merge_eq_empty_avail render d hne' hav, ?_, ?_⟩
    · rw [rowsOf_map_comp]
      simp
    · intro i e r he hr
      rw [rowsOf_map_comp, List.getElem?_map, he] at hr
      simp only [Option.map, Option.some.injEq] at hr
      subst hr
      refine ⟨rfl, rfl, rfl, rfl, rfl, rfl, rfl, ?_⟩
      intro sp hsp
      rw [hmem] at hsp
      simp at hsp
  | false =>
    refine ⟨_, merge_eq_nonempty_avail render d hne' hav, ?_, ?_⟩
    · rw [rowsOf_out]
      simp
    · intro i e r he hr
      rw [rowsOf_out, List.getElem?_map, List.enum, enumFrom_getElem?, he] at hr
      simp only [Option.map, Option.some.injEq, Nat.zero_add] at hr
      subst hr
      refine ⟨rfl, rfl, rfl, rfl, rfl, rfl, rfl, ?_⟩
      intro sp hsp
      rw [rowExtra_fst]
      exact lookup_rowFields e.timestamp (availIndicators d.indicator)
        (avail_shorts_sublist d.indicator) sp hsp

theorem c4_merge_timestamp_invariant_witness :
    c4Data.ohlc ≠ [] ∧
    (∃ out, mergeOhlcWithIndicators (fun t => toString t) c4Data = .ok out ∧
      (rowsOf out).length = c4Data.ohlc.length ∧
      ∀ (i : ℕ) (e : OhlcEntry) (r : MergedRow),
        c4Data.ohlc[i]? = some e → (rowsOf out)[i]? = some r →
        rowMatches (fun t => toString t) c4Data.indicator e r) :=
  ⟨by decide, c4_merge_timestamp_invariant (fun t => toString t) c4Data (by decide)⟩

end TV
